import Mathlib

/-!
Verification of the Autofolio generation pipeline (`app/server/server.js`).

This file gives a shallow embedding, at the level of character lists, of the
parts of the server that the specification's claims are about:

* the key-rotation policy and its error classification
  (`isRetryableError`, `generateText`, `generateTextWithKey`,
  `generateImageToFile`, `generateImageWithKey`);
* the manifest extractor (`robustJsonExtract`) together with a model of
  ECMAScript `JSON.parse` / `JSON.stringify` restricted to the value shapes
  an artifact manifest uses (strings, booleans, null, arrays, objects;
  numeric literals do not occur in manifests and are outside the model);
* the validator/repair engine (`validateAndEnhanceManifest`) with each of
  its regex passes reproduced as an explicit scanner;
* the asset phase of `POST /api/generate-assets`, with the outcome of each
  external image-synthesis call supplied as an oracle;
* token substitution (`replaceInFiles`).

Modelling conventions:

* JavaScript strings are `String` / `List Char`.  A field that JavaScript
  may leave `undefined` (or hold a non-string) is an `Option`.
* Truthiness of a string is `s ≠ ""`; of an optional field, `some s` with
  `s ≠ ""`.
* `String.prototype.replace` with a string replacement is modelled as a
  literal replacement; the `$&`/`$'` substitution patterns of JavaScript
  replacement strings are outside the model (no claim exercises them, and
  the repair engine's interesting replacements use callback functions, for
  which JavaScript itself performs no `$` processing).
* `new Date().getFullYear()` is modelled by the constant `jsCurrentYear`
  (the code is evaluated at one instant; no claim depends on the value).
* The regex passes of the repair engine are each reproduced by a
  first-match / all-matches scanner whose doc comment names the regex it
  embeds; `\s` is modelled by `isJsWs` (the common members of the
  JavaScript whitespace class).
-/

namespace Autofolio

set_option maxRecDepth 100000

/-- Characters of the JavaScript regex class `\s` (the members that occur in
practice: space, tab, line feed, carriage return, vertical tab, form feed,
no-break space, BOM). -/
def isJsWs (c : Char) : Bool :=
  c = ' ' || c = '\t' || c = '\n' || c = '\r' || c = '\x0b' || c = '\x0c' ||
  c = '\u00A0' || c = '\uFEFF'

/-- `pat` occurs as a contiguous substring of `s` (JavaScript `includes`). -/
def hasSub (s pat : List Char) : Bool :=
  match s with
  | [] => pat.isEmpty
  | _ :: rest => pat.isPrefixOf s || hasSub rest pat

/-- String-level wrapper for `hasSub`. -/
def sContains (s pat : String) : Bool := hasSub s.data pat.data

/-- Number of non-overlapping occurrences of `pat` in `s`, scanning left to
right and resuming after each match, as a JavaScript global regex match of a
literal pattern counts them. -/
def countSubGo (pat : List Char) : Nat → List Char → Nat
  | _, [] => 0
  | 0, _ => 0
  | fuel + 1, l@(_ :: rest) =>
    if pat.isPrefixOf l then 1 + countSubGo pat fuel (l.drop pat.length)
    else countSubGo pat fuel rest

/-- Number of non-overlapping occurrences of `pat` in `s`. -/
def countSub (s pat : List Char) : Nat := countSubGo pat s.length s

/-- Replace every non-overlapping occurrence of `pat` (leftmost first) by
`rep`: JavaScript `s.replace(/pat/g, rep)` for a literal pattern.  The fuel
is the input length, which suffices because every step consumes at least one
input character. -/
def replaceAllGo (pat rep : List Char) : Nat → List Char → List Char
  | _, [] => []
  | 0, l => l
  | fuel + 1, l@(c :: rest) =>
    if pat.isPrefixOf l then rep ++ replaceAllGo pat rep fuel (l.drop pat.length)
    else c :: replaceAllGo pat rep fuel rest

/-- JavaScript `s.replace(/pat/g, rep)` for a literal nonempty pattern. -/
def replaceAllL (s pat rep : List Char) : List Char :=
  if pat.isEmpty then s else replaceAllGo pat rep s.length s

/-- Replace the first occurrence of `pat` by `rep`: JavaScript
`s.replace(pat, rep)` with a plain string pattern. -/
def replaceFirstL (s pat rep : List Char) : List Char :=
  match s with
  | [] => s
  | c :: rest =>
    if pat.isPrefixOf s then rep ++ s.drop pat.length
    else c :: replaceFirstL rest pat rep

/-- Split `s` at the first occurrence of `pat`: `some (pre, post)` with
`s = pre ++ pat ++ post`, or `none` when `pat` does not occur. -/
def splitFirst (pat : List Char) : List Char → Option (List Char × List Char)
  | [] => if pat.isEmpty then some ([], []) else none
  | l@(c :: rest) =>
    if pat.isPrefixOf l then some ([], l.drop pat.length)
    else (splitFirst pat rest).map (fun pr => (c :: pr.1, pr.2))

/-- Case-insensitive prefix test (ASCII folding via `Char.toLower`), for the
one `/i` regex of the repair engine. -/
def ciMatches : List Char → List Char → Bool
  | [], _ => true
  | _, [] => false
  | p :: ps, c :: cs => (p.toLower = c.toLower) && ciMatches ps cs

/-- Split at the first case-insensitive occurrence of `pat`. -/
def ciSplitFirst (pat : List Char) : List Char → Option (List Char × List Char)
  | [] => if pat.isEmpty then some ([], []) else none
  | l@(c :: rest) =>
    if ciMatches pat l then some ([], l.drop pat.length)
    else (ciSplitFirst pat rest).map (fun pr => (c :: pr.1, pr.2))

/-- JavaScript `String.prototype.trim` (both ends, `\s` class). -/
def jsTrimL (s : List Char) : List Char :=
  ((s.dropWhile isJsWs).reverse.dropWhile isJsWs).reverse

/-- `trim` on `String`. -/
def jsTrim (s : String) : String := String.mk (jsTrimL s.data)

/-- JavaScript `String.prototype.split` with a nonempty string separator:
`""` splits to `[""]`, adjacent separators yield empty pieces.  Fuel is the
input length. -/
def jsSplitGo (sep : List Char) : Nat → List Char → List (List Char)
  | _, [] => [[]]
  | 0, l => [l]
  | fuel + 1, l@(c :: rest) =>
    if sep.isPrefixOf l then [] :: jsSplitGo sep fuel (l.drop sep.length)
    else
      match jsSplitGo sep fuel rest with
      | [] => [[c]]
      | g :: gs => (c :: g) :: gs

/-- `s.split(sep)` for a nonempty separator. -/
def jsSplit (s sep : String) : List String :=
  (jsSplitGo sep.data s.data.length s.data).map String.mk

/-- Lower-case a string character-wise (models `toLowerCase` on the ASCII
texts error messages use). -/
def jsToLower (s : String) : String := String.mk (s.data.map Char.toLower)

/-- JavaScript `v || d` for a string-or-undefined field: `undefined` and the
empty string are falsy and give the default. -/
def jsOrStr (v : Option String) (d : String) : String :=
  match v with
  | some s => if s = "" then d else s
  | none => d

/-- `some s` exactly when the optional string is truthy in JavaScript. -/
def truthyOpt (v : Option String) : Option String :=
  match v with
  | some s => if s = "" then none else some s
  | none => none

/-- One entry of a user brief's `projects` array. -/
structure Project where
  title : Option String := none
  desc : Option String := none
deriving DecidableEq, Repr

/-- The `skills` field of a user brief: an array, a string, or absent
(`Array.isArray` and `typeof === "string"` distinguish the three). -/
inductive SkillsVal where
  | arr (xs : List String)
  | str (s : String)
  | undef
deriving DecidableEq, Repr

/-- The `accent` field of a user brief: an array, a string, or absent. -/
inductive AccentVal where
  | arr (xs : List String)
  | str (s : String)
  | undef
deriving DecidableEq, Repr

/-- The user brief (`req.body`), with `none` for absent fields. -/
structure UserData where
  name : Option String := none
  title : Option String := none
  tagline : Option String := none
  about : Option String := none
  email : Option String := none
  accent : AccentVal := .undef
  skills : SkillsVal := .undef
  projects : Option (List Project) := none
deriving DecidableEq, Repr

/-- One entry of a manifest's `files` array.  `content := none` models a
missing or non-string `content`; `extra` stands for any further properties
of the JavaScript object, which object spread preserves. -/
structure FileEntry where
  path : Option String := none
  content : Option String := none
  extra : List (String × String) := []
deriving DecidableEq, Repr

/-- The `assetsNeeded` object of a manifest. -/
structure AssetsNeeded where
  heroImage : Option String := none
  projectImages : Option (List String) := none
deriving DecidableEq, Repr

/-- An artifact manifest as the server handles it.  `files := none` models a
manifest whose `files` is absent or not an array. -/
structure Manifest where
  files : Option (List FileEntry) := none
  assetsNeeded : Option AssetsNeeded := none
  userData : Option UserData := none
  accentPalette : Option (List String) := none
deriving DecidableEq, Repr

/-- Models `new Date().getFullYear().toString()` at the one instant the
request executes; no claim depends on the value. -/
def jsCurrentYear : String := "2026"

/-- The brief fields after the defaulting of `validateAndEnhanceManifest`
(server.js lines 646-666). -/
structure Resolved where
  name : String
  title : String
  tagline : String
  about : String
  email : String
  accent : String
  accentSecondary : String
  accentTertiary : String
  paletteForAI : List String
  skills : List String
  projects : List Project
deriving DecidableEq, Repr

/-- `userData?.accent || "#22D3EE"` — an array (even empty) is truthy, an
empty or absent string falls back to the default. -/
def accentInputOf : AccentVal → AccentVal
  | .undef => .str "#22D3EE"
  | .str s => if s = "" then .str "#22D3EE" else .str s
  | .arr xs => .arr xs

/-- The accent palette: an array input is filtered for truthiness, a string
input is split on commas, trimmed and filtered (server.js lines 652-655). -/
def accentPaletteOf (v : AccentVal) : List String :=
  match accentInputOf v with
  | .arr xs => xs.filter (fun s => s ≠ "")
  | .str s => ((jsSplit s ",").map jsTrim).filter (fun s => s ≠ "")
  | .undef => []

/-- The resolved `skills` list (server.js lines 660-661): an array is taken
as is, a string is split on commas and trimmed (with no truthiness filter),
anything else defaults. -/
def skillsOf : SkillsVal → List String
  | .arr xs => xs
  | .str s => (jsSplit s ",").map jsTrim
  | .undef => ["HTML", "CSS", "JavaScript"]

/-- The default projects used when the brief supplies none (server.js
lines 662-666). -/
def defaultProjects : List Project :=
  [ { title := some "Project 1", desc := some "First project description" },
    { title := some "Project 2", desc := some "Second project description" },
    { title := some "Project 3", desc := some "Third project description" } ]

/-- Field defaulting of `validateAndEnhanceManifest` (lines 646-666). -/
def resolveUserData (u : UserData) : Resolved :=
  let palette := accentPaletteOf u.accent
  let accent := jsOrStr palette.head? "#22D3EE"
  let accentSecondary := jsOrStr (palette.get? 1) accent
  let accentTertiary := jsOrStr (palette.get? 2) accentSecondary
  { name := jsOrStr u.name "Portfolio Owner"
    title := jsOrStr u.title "Web Developer"
    tagline := jsOrStr u.tagline "Creating beautiful web experiences"
    about := jsOrStr u.about "Passionate professional with expertise in web development"
    email := jsOrStr u.email "contact@example.com"
    accent := accent
    accentSecondary := accentSecondary
    accentTertiary := accentTertiary
    paletteForAI := [accent, accentSecondary, accentTertiary].filter (fun s => s ≠ "")
    skills := skillsOf u.skills
    projects :=
      match u.projects with
      | some ps => if ps.isEmpty then defaultProjects else ps
      | none => defaultProjects }

/-- `expandAboutText` (server.js lines 605-635): builds a three-paragraph
about section from the about text, title and skills. -/
def expandAboutText (aboutText title : String) (skillsList : List String) : String :=
  let firstParagraph :=
    if aboutText = "" || (jsTrim aboutText).length < 20 then
      let skillsMention :=
        if skillsList.length > 0 then String.intercalate ", " (skillsList.take 3)
        else "web development"
      "I\x27m a passionate " ++ (if title = "" then "professional" else title) ++
        " specializing in " ++ skillsMention ++
        ". I love creating innovative solutions that combine cutting-edge technology with intuitive user experiences."
    else
      if (jsTrim aboutText).length < 100 then
        let skillsMention :=
          if skillsList.length > 0 then
            " With strong skills in " ++ String.intercalate ", " (skillsList.take 4) ++ ","
          else ""
        aboutText ++ skillsMention ++ " I\x27m dedicated to delivering high-quality work."
      else aboutText
  let skillsContext :=
    if skillsList.length > 0 then
      " With expertise spanning " ++ String.intercalate ", " (skillsList.take 5) ++ ","
    else ""
  "      <p>" ++ firstParagraph ++ "</p>\n      <p>" ++ skillsContext ++
    " I bring a combination of technical expertise and creative problem-solving to every project. My approach focuses on creating solutions that are not only functional and scalable but also user-friendly and visually appealing.</p>\n      <p>When I\x27m not working on projects, you can find me exploring new technologies, contributing to open-source communities, or sharing knowledge with fellow developers. I\x27m always excited to take on new challenges and collaborate on innovative projects that make a real impact.</p>"

/-- The navigation block inserted when header or nav is missing (server.js
lines 750-758). -/
def navHtml (name : String) : String :=
  "  <header>\n    <h1>" ++ name ++
    "</h1>\n    <nav>\n      <a href=\"#about\">About</a>\n      <a href=\"#skills\">Skills</a>\n      <a href=\"#projects\">Projects</a>\n      <a href=\"#contact\">Contact</a>\n    </nav>\n  </header>"

/-- The skills section inserted before the projects section when missing
(server.js lines 795-801). -/
def skillsSectionHtml (skills : List String) : String :=
  "\n    <section id=\"skills\" class=\"skills\">\n      <h2>Skills & Technologies</h2>\n      <ul class=\"skills-list\">\n" ++
    String.intercalate "\n" (skills.map (fun s => "        <li>" ++ s ++ "</li>")) ++
    "\n      </ul>\n    </section>"

/-- The replacement skills list of the skills-section surgery (server.js
lines 812-814). -/
def skillsListHtml (skills : List String) : String :=
  "<ul class=\"skills-list\">\n" ++
    String.intercalate "\n" (skills.map (fun s => "        <li>" ++ s ++ "</li>")) ++
    "\n      </ul>"

/-- The contact section inserted before `</main>` when missing (server.js
line 830). -/
def contactSectionHtml (email : String) : String :=
  "    <section id=\"contact\" class=\"contact\">\n      <h2>Get In Touch</h2>\n      <p>Email: <a href=\"mailto:" ++
    email ++ "\">" ++ email ++ "</a></p>\n    </section>\n  </main>"

/-- The footer inserted before `</body>` when missing (server.js line 841). -/
def footerHtml (name : String) : String :=
  "  <footer>\n    <p>© " ++ jsCurrentYear ++ " " ++ name ++
    ". All rights reserved.</p>\n  </footer>\n</body>"

/-- Match of the regex `pfx[^>]*>` at the head of `l` (an opening tag whose
name starts with `pfx`): the matched text, or `none`. -/
def tagOpenAt (pfx l : List Char) : Option (List Char) :=
  if pfx.isPrefixOf l then
    let l1 := l.drop pfx.length
    let mid := l1.takeWhile (fun c => c != '>')
    match l1.drop mid.length with
    | '>' :: _ => some (pfx ++ mid ++ ['>'])
    | _ => none
  else none

/-- Leftmost match of `pfx[^>]*>` in `l` (JavaScript `match`, first match
only), e.g. the `(<body[^>]*>)` and `(<main[^>]*>)` anchors. -/
def findTagOpen (pfx : List Char) : List Char → Option (List Char)
  | [] => none
  | l@(_ :: rest) =>
    match tagOpenAt pfx l with
    | some m => some m
    | none => findTagOpen pfx rest

/-- Match of `<section[^>]*id=["']id["'][^>]*>` at the head of `l`.  The two
quote characters are matched independently, as the regex classes allow. -/
def sectionOpenIdAt (idName l : List Char) : Option (List Char) :=
  if (strOfSection).isPrefixOf l then
    let l1 := l.drop strOfSection.length
    let mid := l1.takeWhile (fun c => c != '>')
    match l1.drop mid.length with
    | '>' :: _ =>
      if hasSub mid (idAttr '"' '"') || hasSub mid (idAttr '\x27' '\x27') ||
         hasSub mid (idAttr '"' '\x27') || hasSub mid (idAttr '\x27' '"') then
        some (strOfSection ++ mid ++ ['>'])
      else none
    | _ => none
  else none
where
  strOfSection : List Char := "<section".data
  idAttr (q q' : Char) : List Char := "id=".data ++ q :: idName ++ [q']

/-- Leftmost match of `(<section[^>]*id=["']id["'][^>]*>)([\s\S]*?)(</section>)`:
the opening tag and the (lazy) inner content up to the first `</section>`. -/
def findSectionWithId (idName : List Char) : List Char → Option (List Char × List Char)
  | [] => none
  | l@(_ :: rest) =>
    match sectionOpenIdAt idName l with
    | some g1 =>
      match splitFirst "</section>".data (l.drop g1.length) with
      | some (g2, _) => some (g1, g2)
      | none => findSectionWithId idName rest
    | none => findSectionWithId idName rest

/-- Leftmost match of `(<section[^>]*id=["']id["'][^>]*>)` alone (the
projects-section anchor of the skills insertion, server.js line 793). -/
def findSectionOpen (idName : List Char) : List Char → Option (List Char)
  | [] => none
  | l@(_ :: rest) =>
    match sectionOpenIdAt idName l with
    | some g1 => some g1
    | none => findSectionOpen idName rest

/-- Match of the case-insensitive regex `<ul[^>]*>[\s\S]*?</ul>` at the head
of `l`: the remainder after the matched region. -/
def ulMatchAt (l : List Char) : Option (List Char) :=
  if ciMatches "<ul".data l then
    let l1 := l.drop 3
    let mid := l1.takeWhile (fun c => c != '>')
    match l1.drop mid.length with
    | '>' :: tail => (ciSplitFirst "</ul>".data tail).map (fun pr => pr.2)
    | _ => none
  else none

/-- `s.replace(/<ul[^>]*>[\s\S]*?<\/ul>/i, rep)` — first match only
(server.js line 817). -/
def replaceFirstUl (rep : List Char) : List Char → List Char
  | [] => []
  | l@(c :: rest) =>
    match ulMatchAt l with
    | some after => rep ++ after
    | none => c :: replaceFirstUl rep rest

/-- Match of `{{PROJECT_(\d)_IMG}}` at the head of `l`: the captured digit. -/
def projImgTokenAt (l : List Char) : Option Nat :=
  if "\x7b\x7bPROJECT_".data.isPrefixOf l then
    match l.drop 10 with
    | d :: rest => if d.isDigit && "_IMG\x7d\x7d".data.isPrefixOf rest
        then some (d.toNat - '0'.toNat) else none
    | [] => none
  else none

/-- First match of `/\{\{PROJECT_(\d)_IMG\}\}/` in `l` (JavaScript `match`
on `beforeContent`, server.js line 709). -/
def findProjImgToken : List Char → Option Nat
  | [] => none
  | l@(_ :: rest) =>
    match projImgTokenAt l with
    | some d => some d
    | none => findProjImgToken rest

/-- Match of `{{PROJECT_(\d)_(IMG|TITLE|DESC)}}` at the head of `l`. -/
def projAnyTokenAt (l : List Char) : Option Nat :=
  if "\x7b\x7bPROJECT_".data.isPrefixOf l then
    match l.drop 10 with
    | d :: rest =>
      if d.isDigit &&
         ("_IMG\x7d\x7d".data.isPrefixOf rest || "_TITLE\x7d\x7d".data.isPrefixOf rest ||
          "_DESC\x7d\x7d".data.isPrefixOf rest)
      then some (d.toNat - '0'.toNat) else none
    | [] => none
  else none

/-- First match of `/\{\{PROJECT_(\d)_(IMG|TITLE|DESC)\}\}/` in `l`
(server.js line 725). -/
def findProjAnyToken : List Char → Option Nat
  | [] => none
  | l@(_ :: rest) =>
    match projAnyTokenAt l with
    | some d => some d
    | none => findProjAnyToken rest


/-- Match of `openT` + `\s*` + `closeT` at the head of `l` (an empty tag,
e.g. the regex `<h2>\s*</h2>`): the consumed text and the remainder.  The
whitespace run is maximal, which agrees with the backtracking regex because
the close tag starts with a non-whitespace character. -/
def emptyTagAt (openT closeT l : List Char) : Option (List Char × List Char) :=
  if openT.isPrefixOf l then
    let l1 := l.drop openT.length
    let w := l1.takeWhile isJsWs
    let l2 := l1.drop w.length
    if closeT.isPrefixOf l2 then some (openT ++ w ++ closeT, l2.drop closeT.length)
    else none
  else none

/-- Global replacement of empty tags with a context-dependent fill:
JavaScript `s.replace(/openT\s*closeT/g, (match, offset) => fill(s.substring(0, offset)))`.
`seenRev` carries the original input consumed so far (reversed), so that the
fill receives exactly `beforeContent` of the source.  Fuel is input length;
every step consumes at least one character. -/
def fixEmptyGo (openT closeT : List Char) (fill : List Char → List Char) :
    Nat → List Char → List Char → List Char
  | _, _, [] => []
  | 0, _, l => l
  | fuel + 1, seenRev, l@(c :: rest) =>
    match emptyTagAt openT closeT l with
    | some pr => fill seenRev.reverse ++ fixEmptyGo openT closeT fill fuel (pr.1.reverse ++ seenRev) pr.2
    | none => c :: fixEmptyGo openT closeT fill fuel (c :: seenRev) rest

/-- The empty-tag repair pass for one tag pair. -/
def fixEmptyTags (openT closeT : List Char) (fill : List Char → List Char) (s : List Char) : List Char :=
  fixEmptyGo openT closeT fill s.length [] s

/-- `projects[n - 1]` for the digit `n` captured from a placeholder token
(`n = 0` indexes at `-1`, which is `undefined`). -/
def projAt (ps : List Project) (n : Nat) : Option Project :=
  if n = 0 then none else ps.get? (n - 1)

/-- Fill for an empty `<h2></h2>` (server.js lines 694-703): title in a hero
context, "About Me" in an about context, title otherwise. -/
def h2Fill (r : Resolved) (before : List Char) : List Char :=
  if hasSub before "class=\"hero\"".data || hasSub before "class=\x27hero\x27".data then
    ("<h2>" ++ r.title ++ "</h2>").data
  else if hasSub before "id=\"about\"".data || hasSub before "id=\x27about\x27".data then
    "<h2>About Me</h2>".data
  else ("<h2>" ++ r.title ++ "</h2>").data

/-- Fill for an empty `<h3></h3>` (server.js lines 706-719): the title of
the project whose image token occurs first in the preceding text, else a
numbered fallback, else the brief title. -/
def h3Fill (r : Resolved) (before : List Char) : List Char :=
  match findProjImgToken before with
  | some n =>
    match projAt r.projects n with
    | some p =>
      match truthyOpt p.title with
      | some t => ("<h3>" ++ t ++ "</h3>").data
      | none => ("<h3>Project " ++ toString n ++ "</h3>").data
    | none => ("<h3>Project " ++ toString n ++ "</h3>").data
  | none => ("<h3>" ++ r.title ++ "</h3>").data

/-- Fill for an empty `<p></p>` (server.js lines 722-744): a project
description when a project token precedes, the tagline in a hero context,
the about text otherwise. -/
def pFill (r : Resolved) (before : List Char) : List Char :=
  match findProjAnyToken before with
  | some n =>
    match projAt r.projects n with
    | some p =>
      match truthyOpt p.desc with
      | some d => ("<p>" ++ d ++ "</p>").data
      | none => ("<p>Project " ++ toString n ++ " description</p>").data
    | none => ("<p>Project " ++ toString n ++ " description</p>").data
  | none =>
    if hasSub before "class=\"hero\"".data || hasSub before "class=\x27hero\x27".data then
      ("<p>" ++ r.tagline ++ "</p>").data
    else if hasSub before "id=\"about\"".data || hasSub before "id=\x27about\x27".data then
      ("<p>" ++ r.about ++ "</p>").data
    else ("<p>" ++ r.about ++ "</p>").data

/-- The scalar placeholder substitutions of the repair engine (server.js
lines 675-680), in source order. -/
def scalarTokens (r : Resolved) : List (String × String) :=
  [("\x7b\x7bNAME\x7d\x7d", r.name), ("\x7b\x7bTITLE\x7d\x7d", r.title),
   ("\x7b\x7bTAGLINE\x7d\x7d", r.tagline), ("\x7b\x7bABOUT\x7d\x7d", r.about),
   ("\x7b\x7bEMAIL\x7d\x7d", r.email), ("\x7b\x7bYEAR\x7d\x7d", jsCurrentYear)]

/-- Apply the scalar placeholder substitutions. -/
def substScalars (r : Resolved) (h : List Char) : List Char :=
  (scalarTokens r).foldl (fun acc kv => replaceAllL acc kv.1.data kv.2.data) h

/-- The per-project placeholder substitutions (server.js lines 683-690):
title and description tokens, only for truthy fields. -/
def substProjectTokens (ps : List Project) (h : List Char) : List Char :=
  ps.enum.foldl
    (fun acc iv =>
      let acc1 :=
        match truthyOpt iv.2.title with
        | some t => replaceAllL acc ("\x7b\x7bPROJECT_" ++ toString (iv.1 + 1) ++ "_TITLE\x7d\x7d").data t.data
        | none => acc
      match truthyOpt iv.2.desc with
      | some d => replaceAllL acc1 ("\x7b\x7bPROJECT_" ++ toString (iv.1 + 1) ++ "_DESC\x7d\x7d").data d.data
      | none => acc1)
    h

/-- Navigation insertion (server.js lines 747-762): when `<header` or `<nav`
is missing and a `<body[^>]*>` anchor exists, splice the nav block after it
and set the `fixed` flag. -/
def navStep (r : Resolved) (st : List Char × Bool) : List Char × Bool :=
  let h := st.1
  if !(hasSub h "<header".data) || !(hasSub h "<nav".data) then
    match findTagOpen "<body".data h with
    | some m => (replaceFirstL h m (m ++ "\n".data ++ (navHtml r.name).data), true)
    | none => st
  else st

/-- About-section insertion or enhancement (server.js lines 765-789). -/
def aboutStep (r : Resolved) (st : List Char × Bool) : List Char × Bool :=
  let h := st.1
  if !(hasSub h "id=\"about\"".data) && !(hasSub h "id=\x27about\x27".data) then
    match findTagOpen "<main".data h with
    | some m =>
      let expanded := expandAboutText r.about r.title r.skills
      (replaceFirstL h m
        (m ++ ("\n    <section id=\"about\" class=\"about\">\n      <h2>About Me</h2>\n" ++
          expanded ++ "\n    </section>").data), true)
    | none => st
  else
    match findSectionWithId "about".data h with
    | some pr =>
      if !(hasSub pr.2 "</p>".data) || countSub pr.2 "<p>".data == 1 then
        let expanded := expandAboutText r.about r.title r.skills
        (replaceFirstL h (pr.1 ++ pr.2 ++ "</section>".data)
          (pr.1 ++ expanded.data ++ "</section>".data), true)
      else st
    | none => st

/-- Skills-section insertion or list surgery (server.js lines 792-823). -/
def skillsStep (r : Resolved) (st : List Char × Bool) : List Char × Bool :=
  let h := st.1
  if !(hasSub h "id=\"skills\"".data) && !(hasSub h "id=\x27skills\x27".data) then
    match findSectionOpen "projects".data h with
    | some g1 =>
      (replaceFirstL h g1 ((skillsSectionHtml r.skills).data ++ "\n    ".data ++ g1), true)
    | none => st
  else
    match findSectionWithId "skills".data h with
    | some pr =>
      if r.skills.length > 0 then
        let inner := pr.1 ++ pr.2
        if !(hasSub inner "<li>".data) || countSub inner "<li>".data < r.skills.length then
          (replaceFirstL h (inner ++ "</section>".data)
            (replaceFirstUl (skillsListHtml r.skills).data inner ++ "</section>".data), true)
        else st
      else st
    | none => st

/-- Contact-section insertion (server.js lines 825-834). -/
def contactStep (r : Resolved) (st : List Char × Bool) : List Char × Bool :=
  let h := st.1
  if !(hasSub h "id=\"contact\"".data) && !(hasSub h "id=\x27contact\x27".data) then
    if hasSub h "</main>".data then
      (replaceFirstL h "</main>".data (contactSectionHtml r.email).data, true)
    else st
  else st

/-- Footer insertion (server.js lines 836-845). -/
def footerStep (r : Resolved) (st : List Char × Bool) : List Char × Bool :=
  let h := st.1
  if !(hasSub h "<footer".data) then
    if hasSub h "</body>".data then
      (replaceFirstL h "</body>".data (footerHtml r.name).data, true)
    else st
  else st

/-- The whole markup transformation of `validateAndEnhanceManifest`
(server.js lines 670-851): placeholder substitution, empty-node repair, then
the structural insertions.  The boolean is the `fixed` flag, set only by the
insertion and enhancement branches; the caller saves the new markup only
when it is true, exactly as line 847-850 does. -/
def fixHtml (r : Resolved) (html : List Char) : List Char × Bool :=
  let h1 := substScalars r html
  let h2 := substProjectTokens r.projects h1
  let h3 := fixEmptyTags "<h2>".data "</h2>".data (h2Fill r) h2
  let h4 := fixEmptyTags "<h3>".data "</h3>".data (h3Fill r) h3
  let h5 := fixEmptyTags "<p>".data "</p>".data (pFill r) h4
  footerStep r (contactStep r (skillsStep r (aboutStep r (navStep r (h5, false)))))

/-- Update the first entry satisfying `p` (JavaScript `Array.prototype.find`
followed by in-place mutation of the found object). -/
def updateFirstFile (p : FileEntry → Bool) (g : FileEntry → FileEntry) :
    List FileEntry → List FileEntry
  | [] => []
  | f :: rest => if p f then g f :: rest else f :: updateFirstFile p g rest

/-- The `index.html` stage (server.js lines 669-851): runs `fixHtml` on a
truthy content and stores the result only when the `fixed` flag is set. -/
def applyHtmlStage (r : Resolved) (files : List FileEntry) : List FileEntry :=
  updateFirstFile (fun f => f.path == some "index.html")
    (fun f =>
      match truthyOpt f.content with
      | some h =>
        let res := fixHtml r h.data
        if res.2 then { f with content := some (String.mk res.1) } else f
      | none => f) files

/-- The comprehensive replacement stylesheet of `validateAndEnhanceManifest`
(server.js lines 861-1183), parameterized by the resolved accent palette. -/
def enhancedCss (accent accentSecondary accentTertiary : String) : String :=
  "/* Comprehensive Portfolio Styles */\n:root \x7b\n  --accent-color: " ++
  accent ++
  ";\n  --accent-secondary: " ++
  accentSecondary ++
  ";\n  --accent-tertiary: " ++
  accentTertiary ++
  ";\n  --accent-gradient: linear-gradient(135deg, var(--accent-secondary), var(--accent-tertiary));\n  --primary-color: " ++
  accent ++
  ";\n  --text-color: #1e293b;\n  --bg-color: #ffffff;\n  --bg-light: #f8fafc;\n  --text-muted: #64748b;\n  --shadow: 0 4px 6px -1px rgba(0, 0, 0, 0.1), 0 2px 4px -1px rgba(0, 0, 0, 0.06);\n  --shadow-lg: 0 10px 15px -3px rgba(0, 0, 0, 0.1), 0 4px 6px -2px rgba(0, 0, 0, 0.05);\n  --radius: 8px;\n" ++
  "  --spacing-xs: 0.5rem;\n  --spacing-sm: 1rem;\n  --spacing-md: 2rem;\n  --spacing-lg: 4rem;\n  --spacing-xl: 6rem;\n\x7d\n\n* \x7b\n" ++
  "  margin: 0;\n  padding: 0;\n  box-sizing: border-box;\n\x7d\n\nhtml \x7b\n  scroll-behavior: smooth;\n\x7d\n" ++
  "\nbody \x7b\n  font-family: system-ui, -apple-system, BlinkMacSystemFont, \x27Segoe UI\x27, Roboto, \x27Helvetica Neue\x27, Arial, sans-serif;\n  line-height: 1.6;\n  color: var(--text-color);\n  background-color: var(--bg-color);\n  margin: 0;\n  padding: 0;\n" ++
  "\x7d\n\n/* Header & Navigation */\nheader \x7b\n  position: sticky;\n  top: 0;\n  background: rgba(255, 255, 255, 0.95);\n  backdrop-filter: blur(10px);\n" ++
  "  box-shadow: var(--shadow);\n  z-index: 1000;\n  padding: var(--spacing-sm) var(--spacing-md);\n\x7d\n\nheader h1 \x7b\n  margin: 0;\n  font-size: clamp(1.25rem, 2vw, 1.5rem);\n" ++
  "  color: var(--accent-color);\n  font-weight: 700;\n\x7d\n\nnav \x7b\n  display: flex;\n  gap: var(--spacing-md);\n\x7d\n" ++
  "\nnav a \x7b\n  color: var(--text-color);\n  text-decoration: none;\n  font-weight: 500;\n  transition: color 0.3s ease;\n  position: relative;\n\x7d\n" ++
  "\nnav a:hover \x7b\n  color: var(--accent-color);\n\x7d\n\nnav a::after \x7b\n  content: \x27\x27;\n  position: absolute;\n" ++
  "  bottom: -4px;\n  left: 0;\n  width: 0;\n  height: 2px;\n  background: var(--accent-color);\n  transition: width 0.3s ease;\n\x7d\n\n" ++
  "nav a:hover::after \x7b\n  width: 100%;\n\x7d\n\n/* Hero Section */\n.hero \x7b\n  min-height: 60vh;\n  display: flex;\n" ++
  "  flex-direction: column;\n  align-items: center;\n  justify-content: center;\n  text-align: center;\n  padding: var(--spacing-xl) var(--spacing-md);\n  background: var(--accent-gradient);\n  position: relative;\n  overflow: hidden;\n" ++
  "\x7d\n\n.hero img \x7b\n  width: 100%;\n  max-width: 600px;\n  max-height: 300px;\n  height: auto;\n  object-fit: cover;\n" ++
  "  border-radius: var(--radius);\n  margin: 0 auto var(--spacing-md);\n  box-shadow: var(--shadow-lg);\n  display: block;\n\x7d\n\n.hero h2 \x7b\n  font-size: clamp(2rem, 5vw, 3.5rem);\n" ++
  "  margin: var(--spacing-sm) 0;\n  color: var(--text-color);\n  font-weight: 700;\n\x7d\n\n.hero p \x7b\n  font-size: clamp(1.125rem, 2vw, 1.25rem);\n  color: var(--text-muted);\n" ++
  "  max-width: 600px;\n  margin: var(--spacing-sm) auto var(--spacing-md);\n\x7d\n\n.cta \x7b\n  display: inline-block;\n  background: var(--accent-color);\n  color: white;\n" ++
  "  padding: var(--spacing-sm) var(--spacing-md);\n  border-radius: var(--radius);\n  text-decoration: none;\n  font-weight: 600;\n  transition: transform 0.3s ease, box-shadow 0.3s ease;\n  margin-top: var(--spacing-md);\n\x7d\n\n" ++
  ".cta:hover \x7b\n  transform: translateY(-2px);\n  box-shadow: var(--shadow-lg);\n\x7d\n\n/* Sections */\nsection \x7b\n  padding: var(--spacing-xl) var(--spacing-md);\n" ++
  "  max-width: 1200px;\n  margin: 0 auto;\n\x7d\n\nsection h2 \x7b\n  font-size: clamp(2rem, 4vw, 2.5rem);\n  margin-bottom: var(--spacing-md);\n  text-align: center;\n" ++
  "  color: var(--text-color);\n\x7d\n\n/* About Section */\n.about \x7b\n  background: var(--bg-light);\n\x7d\n\n" ++
  ".about p \x7b\n  font-size: clamp(1rem, 2vw, 1.125rem);\n  line-height: 1.8;\n  color: var(--text-muted);\n  max-width: 800px;\n  margin: 0 auto;\n\x7d\n\n" ++
  "/* Skills Section */\n.skills \x7b\n  padding: var(--spacing-xl) var(--spacing-md);\n\x7d\n\n.skills-list \x7b\n  list-style: none;\n  display: flex;\n" ++
  "  flex-wrap: wrap;\n  gap: var(--spacing-sm);\n  justify-content: center;\n  padding: 0;\n\x7d\n\n.skills-list li \x7b\n  background: var(--accent-color);\n" ++
  "  color: white;\n  padding: var(--spacing-xs) var(--spacing-sm);\n  border-radius: 20px;\n  font-weight: 500;\n  font-size: 0.9rem;\n  border: 1px solid var(--accent-tertiary);\n  box-shadow: 0 6px 18px -6px var(--accent-secondary);\n  transition: transform 0.3s ease, box-shadow 0.3s ease;\n" ++
  "\x7d\n\n.skills-list li:hover \x7b\n  transform: translateY(-2px);\n  box-shadow: 0 10px 24px -8px var(--accent-tertiary);\n\x7d\n\n/* Projects Section */\n" ++
  "#projects \x7b\n  background: var(--bg-light);\n\x7d\n\n.projects-grid \x7b\n  display: grid;\n  grid-template-columns: repeat(auto-fit, minmax(300px, 1fr));\n  gap: var(--spacing-md);\n" ++
  "  margin-top: var(--spacing-md);\n\x7d\n\n.card \x7b\n  background: white;\n  border-radius: var(--radius);\n  overflow: hidden;\n  box-shadow: var(--shadow);\n" ++
  "  transition: transform 0.3s ease, box-shadow 0.3s ease;\n\x7d\n\n.card:hover \x7b\n  transform: translateY(-8px);\n  box-shadow: var(--shadow-lg);\n\x7d\n\n" ++
  ".card img \x7b\n  width: 100%;\n  height: 200px;\n  max-height: 200px;\n  object-fit: cover;\n  display: block;\n\x7d\n\n" ++
  ".card-body \x7b\n  padding: var(--spacing-md);\n\x7d\n\n.card h3 \x7b\n  font-size: 1.25rem;\n  margin-bottom: var(--spacing-xs);\n  color: var(--text-color);\n" ++
  "\x7d\n\n.card p \x7b\n  color: var(--text-muted);\n  line-height: 1.6;\n\x7d\n\n/* Contact Section */\n" ++
  ".contact \x7b\n  text-align: center;\n\x7d\n\n.contact a \x7b\n  color: var(--accent-color);\n  text-decoration: none;\n  font-weight: 500;\n" ++
  "\x7d\n\n.contact a:hover \x7b\n  text-decoration: underline;\n\x7d\n\n/* Footer */\nfooter \x7b\n" ++
  "  background: var(--text-color);\n  color: white;\n  text-align: center;\n  padding: var(--spacing-md);\n  margin-top: var(--spacing-xl);\n\x7d\n\nfooter p \x7b\n" ++
  "  margin: 0;\n  font-size: 0.9rem;\n\x7d\n\n/* Responsive Design */\n@media (max-width: 768px) \x7b\n  header \x7b\n    flex-direction: column;\n" ++
  "    align-items: flex-start;\n    gap: var(--spacing-sm);\n  \x7d\n\n  nav \x7b\n    flex-wrap: wrap;\n  \x7d\n\n" ++
  "  .hero \x7b\n    min-height: 50vh;\n    padding: var(--spacing-lg) var(--spacing-sm);\n  \x7d\n\n  .hero img \x7b\n    max-height: 300px;\n  \x7d\n" ++
  "\n  .projects-grid \x7b\n    grid-template-columns: 1fr;\n  \x7d\n\n  section \x7b\n    padding: var(--spacing-lg) var(--spacing-sm);\n  \x7d\n" ++
  "\x7d\n\n@media (max-width: 480px) \x7b\n  .hero h2 \x7b\n    font-size: 1.75rem;\n  \x7d\n\n  .skills-list li \x7b\n" ++
  "    font-size: 0.85rem;\n    padding: 0.4rem 0.8rem;\n  \x7d\n\x7d\n"
/-- The replacement script of `validateAndEnhanceManifest` (server.js lines 1193-1225). -/
def enhancedJs : String :=
  "// Portfolio JavaScript\ndocument.addEventListener(\x27DOMContentLoaded\x27, function() \x7b\n  // Smooth scrolling for anchor links\n  document.querySelectorAll(\x27a[href^=\"#\"]\x27).forEach(anchor => \x7b\n    anchor.addEventListener(\x27click\x27, function (e) \x7b\n      e.preventDefault();\n" ++
  "      const target = document.querySelector(this.getAttribute(\x27href\x27));\n      if (target) \x7b\n        target.scrollIntoView(\x7b\n          behavior: \x27smooth\x27,\n          block: \x27start\x27\n        \x7d);\n" ++
  "      \x7d\n    \x7d);\n  \x7d);\n\n  // Update year in footer\n  const yearElement = document.querySelector(\x27footer p\x27);\n" ++
  "  if (yearElement) \x7b\n    yearElement.innerHTML = yearElement.innerHTML.replace(/\\d\x7b4\x7d/, new Date().getFullYear());\n  \x7d\n\n  // Mobile menu toggle (if needed)\n  const navToggle = document.querySelector(\x27.nav-toggle\x27);\n" ++
  "  const navMenu = document.querySelector(\x27nav\x27);\n  \n  if (navToggle && navMenu) \x7b\n    navToggle.addEventListener(\x27click\x27, () => \x7b\n      navMenu.classList.toggle(\x27active\x27);\n    \x7d);\n" ++
  "  \x7d\n\x7d);\n"
/-- `content.split('\n').length`. -/
def cssLineCount (c : String) : Nat := countSub c.data "\n".data + 1

/-- The `styles.css` stage (server.js lines 854-1188): a truthy stylesheet of
fewer than 100 lines is replaced wholesale by `enhancedCss`. -/
def applyCssStage (r : Resolved) (files : List FileEntry) : List FileEntry :=
  updateFirstFile (fun f => f.path == some "styles.css")
    (fun f =>
      match truthyOpt f.content with
      | some c =>
        if cssLineCount c < 100 then
          { f with content := some (enhancedCss r.accent r.accentSecondary r.accentTertiary) }
        else f
      | none => f) files

/-- The `script.js` stage (server.js lines 1191-1228): a missing, falsy or
trivially short script is replaced by `enhancedJs`. -/
def applyJsStage (files : List FileEntry) : List FileEntry :=
  updateFirstFile (fun f => f.path == some "script.js")
    (fun f =>
      match f.content with
      | some s => if s = "" || (jsTrim s).length < 50 then { f with content := some enhancedJs } else f
      | none => { f with content := some enhancedJs }) files

/-- The validator/repair engine `validateAndEnhanceManifest` (server.js
lines 639-1233) on string contents.  Besides the explicit guard on `files`
(lines 641-643) the source can also throw `TypeError` on a truthy
non-string file content (lines 671, 856, 1192); this model restricts
`content` to a string or a missing/falsy value, on which the function is
total past the guard — `validateAndEnhanceManifestR` below keeps the raw
contents and the `TypeError` paths. -/
def validateAndEnhanceManifest (m : Manifest) (userData : UserData) : Except String Manifest :=
  match m.files with
  | none => .error "Manifest must have a \x27files\x27 array"
  | some files =>
    let r := resolveUserData userData
    let files1 := applyHtmlStage r files
    let files2 := applyCssStage r files1
    let files3 := applyJsStage files2
    .ok { m with files := some files3, accentPalette := some r.paletteForAI }

/-- Token substitution `replaceInFiles` (server.js lines 592-602, identical
in the older `app/server/server.js` lines 192-202): maps over the files,
leaving any entry with a falsy `path` or non-string `content` unchanged, and
otherwise replacing every `{{k}}` token through the replacement map in
insertion order. -/
def replaceInFiles (files : List FileEntry) (replacements : List (String × String)) :
    List FileEntry :=
  files.map (fun f =>
    match truthyOpt f.path, f.content with
    | some _, some c =>
      { f with content := some (String.mk (replacements.foldl
          (fun acc kv => replaceAllL acc ("\x7b\x7b" ++ kv.1 ++ "\x7d\x7d").data kv.2.data) c.data)) }
    | _, _ => f)

/-- A JavaScript error as the rotation policy inspects it: the status chain
`err?.status || err?.code || err?.response?.status || err?.cause?.status`
and the message. -/
structure JsError where
  status : Option Nat := none
  code : Option Nat := none
  responseStatus : Option Nat := none
  causeStatus : Option Nat := none
  message : String := ""
deriving DecidableEq, Repr

/-- JavaScript `a || b` on number-or-undefined values (`0` is falsy). -/
def jsOrNum (a b : Option Nat) : Option Nat :=
  match a with
  | some n => if n = 0 then b else some n
  | none => b

/-- `getErrorStatus` (server.js lines 56-58). -/
def getErrorStatus (e : JsError) : Option Nat :=
  jsOrNum e.status (jsOrNum e.code (jsOrNum e.responseStatus e.causeStatus))

/-- `isRetryableError` (server.js lines 60-64): a rate-limit/quota/overload
signal, by status code or message text. -/
def isRetryableError (e : JsError) : Bool :=
  getErrorStatus e == some 429 || getErrorStatus e == some 503 ||
  sContains (jsToLower e.message) "quota" ||
  sContains (jsToLower e.message) "overloaded" ||
  sContains (jsToLower e.message) "rate limit"

/-- `err?.message || err?.toString() || "Unknown error"`: an `Error` with an
empty message stringifies to the truthy `"Error"`. -/
def errMsgOf (e : JsError) : String := if e.message = "" then "Error" else e.message

/-- One part of a provider response's `candidates[0].content.parts`. -/
structure GPart where
  text : Option String := none
deriving DecidableEq, Repr

/-- A `@google/genai` text response: the `text` convenience field and the
parts of the first candidate (`none` models a missing chain). -/
structure GenAiResponse where
  text : Option String := none
  parts : Option (List GPart) := none
deriving DecidableEq, Repr

/-- `candidates[0].content.parts.filter(p => p.text).map(p => p.text).join("")`. -/
def joinTruthyParts (ps : List GPart) : String :=
  String.join ((ps.filter (fun p => truthyOpt p.text ≠ none)).map (fun p => p.text.getD ""))

/-- The `alt` fallback text of a response, truthy or `none`. -/
def altTruthy (parts : Option (List GPart)) : Option String :=
  match parts with
  | some ps => truthyOpt (some (joinTruthyParts ps))
  | none => none

/-- The `text` member of a legacy `@google/generative-ai` response: a
function, a plain string, or absent (`typeof` distinguishes them). -/
inductive LegacyText where
  | fn (s : String)
  | str (s : String)
  | undef
deriving DecidableEq, Repr

/-- A legacy text response. -/
structure LegacyResponse where
  text : LegacyText := .undef
  parts : Option (List GPart) := none
deriving DecidableEq, Repr

/-- `generateTextWithKey` (server.js lines 432-493), with the two provider
calls supplied as oracles.  The new-interface call is attempted first; on a
non-retryable error it is rethrown at once, on a retryable error or an
unusable payload the legacy interface is consulted; an unusable legacy
payload becomes the fatal `"Empty response from Gemini"`. -/
def generateTextWithKey (newResp : Except JsError GenAiResponse)
    (legacyResp : Except JsError LegacyResponse) : Except JsError String :=
  let legacyAlt (r : LegacyResponse) : Except JsError String :=
    match altTruthy r.parts with
    | some a => .ok a
    | none => .error { message := "Empty response from Gemini" }
  let fallback : Except JsError String :=
    match legacyResp with
    | .error e => .error e
    | .ok r =>
      match r.text with
      | .fn t => if t = "" then legacyAlt r else .ok t
      | .str t => .ok t
      | .undef => legacyAlt r
  match newResp with
  | .ok r =>
    match truthyOpt r.text with
    | some t => .ok t
    | none =>
      match altTruthy r.parts with
      | some a => .ok a
      | none => fallback
  | .error e => if isRetryableError e then fallback else .error e

/-- The credential-rotation loop shared verbatim by `generateText`
(server.js lines 401-430) and `generateImageToFile` (lines 512-539): try
each key in order; on success stop; on a retryable error with keys left,
continue; otherwise throw a wrapped error.  The second component is the list
of keys attempted, for the claims about which candidates are reached. -/
def rotateKeys (attempt : String → Except JsError α) (wrapMsg : String) :
    List String → Except String α × List String
  | [] => (.error "No Gemini API keys configured. Please set them in app/server/.env file", [])
  | k :: rest =>
    match attempt k with
    | .ok v => (.ok v, [k])
    | .error e =>
      if isRetryableError e && !rest.isEmpty then
        let r := rotateKeys attempt wrapMsg rest
        (r.1, k :: r.2)
      else (.error (wrapMsg ++ errMsgOf e), [k])

/-- `generateText` (server.js lines 401-430), with `generateTextWithKey`
abstracted into a per-key attempt oracle. -/
def generateText (attempt : String → Except JsError String) (keys : List String) :
    Except String String × List String :=
  rotateKeys attempt "Text generation failed: " keys

/-- The image model candidates (server.js lines 44-48) with `IMAGE_MODEL`
unset: the default duplicates the first entry. -/
def IMAGE_MODEL_CANDIDATES : List String :=
  ["gemini-2.5-flash-image", "gemini-2.5-flash-image", "gemini-2.0-flash-exp-image-generation"]

/-- The legacy image model list (server.js line 565). -/
def legacyImageModels : List String :=
  ["gemini-2.5-flash-image", "gemini-2.0-flash-exp-image-generation"]

/-- An image response, reduced to the `inlineData.data` of the first part
that carries one (`none` when no part does). -/
structure ImgResp where
  inline : Option String := none
deriving DecidableEq, Repr

/-- One model-candidate loop of `generateImageWithKey` (server.js
lines 544-561 and 567-587): a response with inline data succeeds; a response
without usable data falls through to the next model; a retryable error
continues; a non-retryable error is rethrown.  `none` in the first component
means the loop fell through; the second component lists the models tried. -/
def imgModelLoop (attempt : String → Except JsError ImgResp) (outFile : String) :
    List String → Option (Except JsError String) × List String
  | [] => (none, [])
  | mdl :: rest =>
    match attempt mdl with
    | .ok r =>
      match truthyOpt r.inline with
      | some _ => (some (.ok outFile), [mdl])
      | none =>
        let res := imgModelLoop attempt outFile rest
        (res.1, mdl :: res.2)
    | .error e =>
      if isRetryableError e then
        let res := imgModelLoop attempt outFile rest
        (res.1, mdl :: res.2)
      else (some (.error e), [mdl])

/-- `generateImageWithKey` (server.js lines 541-590): the new-interface
model loop, then the legacy model loop, then the fatal
`"No image data returned from Gemini"`. -/
def generateImageWithKey (attemptNew attemptLegacy : String → Except JsError ImgResp)
    (outFile : String) : Except JsError String × List String :=
  match imgModelLoop attemptNew outFile IMAGE_MODEL_CANDIDATES with
  | (some res, att) => (res, att)
  | (none, att) =>
    match imgModelLoop attemptLegacy outFile legacyImageModels with
    | (some res, att2) => (res, att ++ att2)
    | (none, att2) => (.error { message := "No image data returned from Gemini" }, att ++ att2)

/-- `generateImageToFile` (server.js lines 512-539): the same rotation loop
as `generateText`, wrapping failures as `"Image generation failed: "`. -/
def generateImageToFile (attempt : String → Except JsError String) (keys : List String) :
    Except String String × List String :=
  rotateKeys attempt "Image generation failed: " keys

/-- The embedded 1×1 transparent PNG used when even the placeholder fetch
fails (server.js lines 504-507), as its base64 text. -/
def minimalPngBase64 : String :=
  "iVBORw0KGgoAAAANSUhEUgAAAAEAAAABCAYAAAAfFcSJAAAADUlEQVR42mNk+M9QDwADhgGAWjR9awAAAABJRU5ErkJggg=="

/-- `generatePlaceholderImage` (server.js lines 495-510): fetch a remote
placeholder; on any failure fall back to the embedded 1×1 PNG.  Total — it
never fails.  `fetchOk` is the oracle for the network fetch; the returned
string stands for the image bytes. -/
def generatePlaceholderImage (fetchOk : Bool) (width height : Nat) : String :=
  if fetchOk then
    "https://via.placeholder.com/" ++ toString width ++ "x" ++ toString height ++ ".png"
  else minimalPngBase64

/-- How a written asset file got its bytes. -/
inductive ImgSource where
  | generated
  | placeholder (bytes : String)
deriving DecidableEq, Repr

/-- The observable outcome of the asset phase: the token map handed to
`replaceInFiles`, every file written under `assets/` with its provenance,
the prompts sent to `generateImageToFile`, and the updated manifest. -/
structure AssetOut where
  replacements : List (String × String)
  written : List (String × ImgSource)
  calls : List (String × String)
  manifest : Manifest
deriving DecidableEq, Repr

/-- The hero prompt of the asset phase (server.js line 1355). -/
def assetsHeroPrompt (paletteDescription : String) : String :=
  "abstract geometric background pattern, modern professional web design, minimalist style, " ++
  paletteDescription ++
  "subtle gradients and clean geometric shapes like triangles, circles, polygons, and hexagons, repeating pattern texture, portfolio website background, professional illustration, NO people, NO characters, NO superhero themes, NO costumes, NO persons, NO human figures, NO masked characters, NO caped figures, NO action heroes, NO comic book style, abstract geometric pattern ONLY, design elements only"

/-- The per-project prompt choice of the asset phase (server.js
lines 1384-1398): project data when both title and description are truthy,
else the manifest's prompt when truthy, else a default. -/
def projectPromptFor (projects : List Project) (imgs : List String) (hint : String)
    (i : Nat) : String :=
  let fromImgs :=
    match imgs.get? i with
    | some s =>
      if s = "" then
        "professional software application screenshot mockup, modern UI design, clean interface" ++
          hint ++ ", portfolio project image, neutral background, no people"
      else s
    | none =>
      "professional software application screenshot mockup, modern UI design, clean interface" ++
        hint ++ ", portfolio project image, neutral background, no people"
  match projects.get? i with
  | some p =>
    match truthyOpt p.title, truthyOpt p.desc with
    | some t, some d =>
      "professional screenshot or mockup of " ++ t ++ " web application project: " ++ d ++
        ", modern UI design, clean interface" ++ hint ++
        ", realistic software application screenshot, product mock photo, neutral background, no people, professional web design"
    | _, _ => fromImgs
  | none => fromImgs

/-- One image need of the asset phase (the try/catch around each
`generateImageToFile` call, server.js lines 1359-1370 and 1401-1412): on
success the generated file stands; on any failure a placeholder is written
instead; the token → path mapping is recorded in both branches. -/
def resolveNeed (genOk : Bool) (phFetchOk : Bool) (width height : Nat)
    (token relPath outFile : String) : (String × String) × (String × ImgSource) :=
  if genOk then ((token, relPath), (outFile, .generated))
  else ((token, relPath), (outFile, .placeholder (generatePlaceholderImage phFetchOk width height)))

/-- The project-image prompt list of the asset phase (server.js
lines 1373-1375): the manifest's `projectImages` cut to three when it is an
array, else empty. -/
def assetsImgs (m : Manifest) : List String :=
  match m.assetsNeeded with
  | some a => match a.projectImages with | some l => l.take 3 | none => []
  | none => []

/-- The brief projects of the asset phase (server.js line 1377). -/
def assetsProjects (m : Manifest) : List Project :=
  match (m.userData.getD {}).projects with
  | some ps => ps.take 3
  | none => []

/-- The number of project images the asset phase generates (server.js
line 1381). -/
def numProjectsToGenerate (projects : List Project) (imgs : List String) : Nat :=
  if projects.length > 0 then min projects.length 3
  else min (if imgs.length = 0 then 3 else imgs.length) 3

/-- The asset phase of `POST /api/generate-assets` after the manifest is
loaded (server.js lines 1336-1420).  `heroOk`/`projOk` are the oracles for
the terminal outcome of each `generateImageToFile` rotation, `phFetchOk` for
each placeholder fetch (need 0 is the hero, need `i + 1` is project `i`).
The error case is the `TypeError` the route's outer handler catches when the
stored manifest has no `files` array to substitute into. -/
def generateAssetsPhase (m : Manifest) (heroOk : Bool) (projOk : Nat → Bool)
    (phFetchOk : Nat → Bool) : Except String AssetOut :=
  let userData := m.userData.getD {}
  let accentPalette := m.accentPalette.getD []
  let paletteDescription :=
    if accentPalette.length > 0 then
      "color palette " ++ String.intercalate ", " accentPalette ++ ", "
    else ""
  let projectPaletteHint :=
    if accentPalette.length > 0 then
      ", color palette " ++ String.intercalate ", " accentPalette
    else ""
  let heroPrompt := assetsHeroPrompt paletteDescription
  let hero := resolveNeed heroOk (phFetchOk 0) 1200 600 "HERO_IMAGE" "./assets/hero.png" "assets/hero.png"
  let imgs := assetsImgs m
  let projects := assetsProjects m
  let n := numProjectsToGenerate projects imgs
  let idxs := List.range n
  let projResolved := idxs.map (fun i =>
    resolveNeed (projOk i) (phFetchOk (i + 1)) 800 600
      ("PROJECT_" ++ toString (i + 1) ++ "_IMG")
      ("./assets/project_" ++ toString (i + 1) ++ ".png")
      ("assets/project_" ++ toString (i + 1) ++ ".png"))
  let replacements := hero.1 :: projResolved.map (fun pr => pr.1)
  let written := hero.2 :: projResolved.map (fun pr => pr.2)
  let calls := (heroPrompt, "assets/hero.png") ::
    idxs.map (fun i => (projectPromptFor projects imgs projectPaletteHint i,
      "assets/project_" ++ toString (i + 1) ++ ".png"))
  match m.files with
  | none => .error "TypeError: Cannot read properties of undefined (reading \x27map\x27)"
  | some fs =>
    .ok { replacements := replacements, written := written, calls := calls,
          manifest := { m with files := some (replaceInFiles fs replacements) } }

/-- The tail of `POST /api/generate-spec` after manifest extraction
(server.js lines 1265-1320).  The route stores the brief in the manifest,
repairs it, ensures `assetsNeeded` exists — and then line 1280 evaluates
`paletteForAI.length`.  `paletteForAI` is a `const` declared inside
`validateAndEnhanceManifest` (line 659); it is not in scope in the route
handler, so the evaluation raises a `ReferenceError`, caught by the route's
`try`/`catch`, and the hero-prompt override and project-image normalization
of lines 1282-1314 never execute.  No manifest is written. -/
def generateSpecPostProcess (extracted : Manifest) (u : UserData) : Except String Manifest :=
  let m0 := { extracted with userData := some u }
  match validateAndEnhanceManifest m0 u with
  | .error e => .error e
  | .ok m1 =>
    let _m2 : Manifest :=
      if m1.assetsNeeded = none then { m1 with assetsNeeded := some {} } else m1
    .error "ReferenceError: paletteForAI is not defined"

-- ===== JSON model: values, stringify, parse, extractor (C8) =====

mutual
/-- JSON values as an artifact manifest uses them: strings, booleans, null,
arrays and objects.  Numeric literals do not occur in manifests and are
outside the model.  The mutual form (instead of nested `List`) keeps every
recursion structural, so the kernel can evaluate it. -/
inductive J where
  | jnull : J
  | jbool : Bool → J
  | jstr : String → J
  | jarr : JArr → J
  | jobj : JObj → J
deriving DecidableEq, Repr

inductive JArr where
  | anil : JArr
  | acons : J → JArr → JArr
deriving DecidableEq, Repr

inductive JObj where
  | onil : JObj
  | ocons : String → J → JObj → JObj
deriving DecidableEq, Repr
end

/-- Lower-case hex digit, as `JSON.stringify` writes in `\u00xx` escapes. -/
def hexDig (n : Nat) : Char :=
  if n < 10 then Char.ofNat ('0'.toNat + n) else Char.ofNat ('a'.toNat + n - 10)

/-- The escape `JSON.stringify` applies to one character of a string value:
quote and backslash are escaped, the five short escapes are used for their
control characters, any other control character becomes `\u00xx`, and
everything else is emitted literally. -/
def escChar (c : Char) : List Char :=
  if c = '"' then ['\\', '"']
  else if c = '\\' then ['\\', '\\']
  else if c = '\x08' then ['\\', 'b']
  else if c = '\t' then ['\\', 't']
  else if c = '\n' then ['\\', 'n']
  else if c = '\x0c' then ['\\', 'f']
  else if c = '\r' then ['\\', 'r']
  else if c.toNat < 0x20 then
    ['\\', 'u', '0', '0', hexDig (c.toNat / 16), hexDig (c.toNat % 16)]
  else [c]

/-- A JSON string literal for `s`. -/
def quoteStr (s : String) : List Char :=
  '"' :: (s.data.map escChar).flatten ++ ['"']

mutual
/-- Compact `JSON.stringify` of a value. -/
def strJ : J → List Char
  | .jnull => "null".data
  | .jbool true => "true".data
  | .jbool false => "false".data
  | .jstr s => quoteStr s
  | .jarr a => '[' :: (strArr a ++ [']'])
  | .jobj o => '\x7b' :: (strObj o ++ ['\x7d'])
termination_by structural j => j

def strArr : JArr → List Char
  | .anil => []
  | .acons v .anil => strJ v
  | .acons v (.acons w tl) => strJ v ++ ',' :: strArr (.acons w tl)
termination_by structural a => a

def strObj : JObj → List Char
  | .onil => []
  | .ocons k v .onil => quoteStr k ++ ':' :: strJ v
  | .ocons k v (.ocons k' w tl) => quoteStr k ++ ':' :: strJ v ++ ',' :: strObj (.ocons k' w tl)
termination_by structural o => o
end

/-- `JSON.stringify(m)` as a `String`. -/
def jsonStringify (j : J) : String := String.mk (strJ j)

/-- The whitespace `JSON.parse` skips between tokens (RFC 8259: space, tab,
line feed, carriage return). -/
def isJsonWs (c : Char) : Bool :=
  c = ' ' || c = '\t' || c = '\n' || c = '\r'

/-- Skip inter-token whitespace. -/
def skipWsJson (l : List Char) : List Char := l.dropWhile isJsonWs

/-- Value of one hex digit. -/
def hexVal (c : Char) : Option Nat :=
  if '0'.toNat ≤ c.toNat ∧ c.toNat ≤ '9'.toNat then some (c.toNat - '0'.toNat)
  else if 'a'.toNat ≤ c.toNat ∧ c.toNat ≤ 'f'.toNat then some (c.toNat - 'a'.toNat + 10)
  else if 'A'.toNat ≤ c.toNat ∧ c.toNat ≤ 'F'.toNat then some (c.toNat - 'A'.toNat + 10)
  else none

/-- Parse the contents of a JSON string literal after its opening quote:
the decoded characters and the input after the closing quote.  Raw control
characters and unknown escapes are rejected, as `JSON.parse` rejects them;
a `\uXXXX` escape must denote a Unicode scalar value (a lone surrogate,
which a Lean `Char` cannot carry, is outside the model).  One fuel unit is
spent per decoded character, so fuel `input length + 1` always suffices. -/
def parseStrChars : Nat → List Char → Option (List Char × List Char)
  | 0, _ => none
  | _ + 1, [] => none
  | fuel + 1, c :: rest =>
    if c = '"' then some ([], rest)
    else if c = '\\' then
      match rest with
      | [] => none
      | e :: rest2 =>
        if e = '"' then (parseStrChars fuel rest2).map (fun pr => ('"' :: pr.1, pr.2))
        else if e = '\\' then (parseStrChars fuel rest2).map (fun pr => ('\\' :: pr.1, pr.2))
        else if e = '/' then (parseStrChars fuel rest2).map (fun pr => ('/' :: pr.1, pr.2))
        else if e = 'b' then (parseStrChars fuel rest2).map (fun pr => ('\x08' :: pr.1, pr.2))
        else if e = 'f' then (parseStrChars fuel rest2).map (fun pr => ('\x0c' :: pr.1, pr.2))
        else if e = 'n' then (parseStrChars fuel rest2).map (fun pr => ('\n' :: pr.1, pr.2))
        else if e = 'r' then (parseStrChars fuel rest2).map (fun pr => ('\r' :: pr.1, pr.2))
        else if e = 't' then (parseStrChars fuel rest2).map (fun pr => ('\t' :: pr.1, pr.2))
        else if e = 'u' then
          match rest2 with
          | h1 :: h2 :: h3 :: h4 :: rest3 =>
            match hexVal h1, hexVal h2, hexVal h3, hexVal h4 with
            | some a, some b, some x, some d =>
              let n := ((a * 16 + b) * 16 + x) * 16 + d
              if h : n < 0xd800 ∨ (0xe000 ≤ n ∧ n < 0x110000) then
                (parseStrChars fuel rest3).map (fun pr => (Char.ofNat n :: pr.1, pr.2))
              else none
            | _, _, _, _ => none
          | _ => none
        else none
    else if c.toNat < 0x20 then none
    else (parseStrChars fuel rest).map (fun pr => (c :: pr.1, pr.2))

mutual
/-- A strict recursive-descent `JSON.parse` value parser (without numeric
literals, which manifests never contain): `some (v, rest)` when a value can
be read from the front of the input.  Fuel bounds the nesting and element
recursion; `input length + 1` always suffices. -/
def parseVal : Nat → List Char → Option (J × List Char)
  | 0, _ => none
  | fuel + 1, l =>
    match skipWsJson l with
    | '\x7b' :: rest =>
      match skipWsJson rest with
      | '\x7d' :: rest2 => some (.jobj .onil, rest2)
      | _ => (parseMembers fuel rest).map (fun pr => (.jobj pr.1, pr.2))
    | '[' :: rest =>
      match skipWsJson rest with
      | ']' :: rest2 => some (.jarr .anil, rest2)
      | _ => (parseElems fuel rest).map (fun pr => (.jarr pr.1, pr.2))
    | '"' :: rest =>
      (parseStrChars (rest.length + 1) rest).map (fun pr => (.jstr (String.mk pr.1), pr.2))
    | 't' :: rest =>
      if "rue".data.isPrefixOf rest then some (.jbool true, rest.drop 3) else none
    | 'f' :: rest =>
      if "alse".data.isPrefixOf rest then some (.jbool false, rest.drop 4) else none
    | 'n' :: rest =>
      if "ull".data.isPrefixOf rest then some (.jnull, rest.drop 3) else none
    | _ => none
termination_by structural fuel _ => fuel

def parseElems : Nat → List Char → Option (JArr × List Char)
  | 0, _ => none
  | fuel + 1, l =>
    match parseVal fuel l with
    | some (v, rest) =>
      match skipWsJson rest with
      | ',' :: rest2 => (parseElems fuel rest2).map (fun pr => (.acons v pr.1, pr.2))
      | ']' :: rest2 => some (.acons v .anil, rest2)
      | _ => none
    | none => none
termination_by structural fuel _ => fuel

def parseMembers : Nat → List Char → Option (JObj × List Char)
  | 0, _ => none
  | fuel + 1, l =>
    match skipWsJson l with
    | '"' :: rest =>
      match parseStrChars (rest.length + 1) rest with
      | some (kcs, rest2) =>
        match skipWsJson rest2 with
        | ':' :: rest3 =>
          match parseVal fuel rest3 with
          | some (v, rest4) =>
            match skipWsJson rest4 with
            | ',' :: rest5 =>
              (parseMembers fuel rest5).map (fun pr => (.ocons (String.mk kcs) v pr.1, pr.2))
            | '\x7d' :: rest5 => some (.ocons (String.mk kcs) v .onil, rest5)
            | _ => none
          | none => none
        | _ => none
      | none => none
    | _ => none
termination_by structural fuel _ => fuel
end

/-- Strict `JSON.parse`: one complete value, with only whitespace allowed
after it. -/
def jsonParse (l : List Char) : Option J :=
  match parseVal (l.length + 1) l with
  | some (v, rest) => if (skipWsJson rest).isEmpty then some v else none
  | none => none

/-- The fenced-block extraction of `robustJsonExtract` (the regex
`/```(?:json)?\s*([\s\S]*?)```/i`, server.js line 389): the leftmost pair of
code fences, with an optional case-insensitive `json` marker after the
opener, and the lazily matched inner content trimmed (the `\s*` of the
pattern is absorbed by the `trim` the caller applies).  A single scan from
the first fence is faithful: if no closing fence follows the first opener,
no later opener can have one either. -/
def fencedInner (s : List Char) : Option (List Char) :=
  match splitFirst "```".data s with
  | none => none
  | some pr =>
    let afterLang := if ciMatches "json".data pr.2 then pr.2.drop 4 else pr.2
    match splitFirst "```".data afterLang with
    | some pr2 => some (jsTrimL pr2.1)
    | none => none

/-- First index of a character (for `indexOf`). -/
def firstIdx (c : Char) : List Char → Option Nat
  | [] => none
  | x :: xs => if x = c then some 0 else (firstIdx c xs).map (· + 1)

/-- Last index of a character (for `lastIndexOf`). -/
def lastIdx (c : Char) (l : List Char) : Option Nat :=
  (firstIdx c l.reverse).map (fun i => l.length - 1 - i)

/-- The manifest extractor `robustJsonExtract` (server.js lines 387-399):
reject empty input; take the inner content of a fenced block when one
exists; try a strict parse; on failure parse the slice from the first
`{` to the last `}`; otherwise raise. -/
def robustJsonExtract (s : String) : Except String J :=
  if s = "" then .error "Empty model output"
  else
    let s1 := match fencedInner s.data with
      | some inner => inner
      | none => s.data
    match jsonParse s1 with
    | some v => .ok v
    | none =>
      match firstIdx '\x7b' s1, lastIdx '\x7d' s1 with
      | some first, some last =>
        let candidate := (s1.drop first).take (last + 1 - first)
        match jsonParse candidate with
        | some v => .ok v
        | none => .error "Invalid JSON from model"
      | _, _ => .error "Invalid JSON from model"

/-- Leading prose whose first non-whitespace character cannot begin a JSON
value, so a strict parse of prose-wrapped output fails and the brace-slice
fallback is exercised. -/
def proseLeadB (p : List Char) : Bool :=
  match skipWsJson p with
  | [] => false
  | c :: _ => !(c = '\x7b' || c = '[' || c = '"' || c = 't' || c = 'f' || c = 'n')

mutual
/-- Structural size of a value, bounding the parser fuel it needs. -/
def sizeJ : J → Nat
  | .jnull => 1
  | .jbool _ => 1
  | .jstr _ => 1
  | .jarr a => sizeA a + 1
  | .jobj o => sizeO o + 1
termination_by structural j => j

def sizeA : JArr → Nat
  | .anil => 1
  | .acons v tl => max (sizeJ v) (sizeA tl) + 1
termination_by structural a => a

def sizeO : JObj → Nat
  | .onil => 1
  | .ocons _ v tl => max (sizeJ v) (sizeO tl) + 1
termination_by structural o => o
end

/-- The separator-and-tail text following the first element of an array. -/
def arrSep : JArr → List Char
  | .anil => []
  | .acons w tl => ',' :: strArr (.acons w tl)

/-- The separator-and-tail text following the first member of an object. -/
def objSep : JObj → List Char
  | .onil => []
  | .ocons k w tl => ',' :: strObj (.ocons k w tl)

deriving instance DecidableEq for Except

-- ===== JSON lemmas (C8) =====

theorem skipWsJson_cons_not (c : Char) (l : List Char) (h : isJsonWs c = false) :
    skipWsJson (c :: l) = c :: l := by
  simp [skipWsJson, List.dropWhile_cons, h]

theorem isPrefixOf_append_self (a b : List Char) : a.isPrefixOf (a ++ b) = true := by
  rw [List.isPrefixOf_iff_prefix]; exact List.prefix_append a b

theorem hexVal_hexDig (m : Nat) (h : m < 16) : hexVal (hexDig m) = some m := by
  interval_cases m <;> rfl

theorem parseStrChars_round : ∀ (cs : List Char) (rest : List Char) (fuel : Nat),
    cs.length < fuel →
    parseStrChars fuel ((cs.map escChar).flatten ++ '"' :: rest) = some (cs, rest)
  | [], rest, fuel, h => by
    cases fuel with
    | zero => omega
    | succ f => simp [parseStrChars]
  | c :: cs, rest, fuel, h => by
    cases fuel with
    | zero => omega
    | succ f =>
      have ih := parseStrChars_round cs rest f (by simpa using Nat.lt_of_succ_lt_succ h)
      show parseStrChars (f + 1) ((escChar c ++ (cs.map escChar).flatten) ++ '"' :: rest) = _
      rw [List.append_assoc]
      set T := (cs.map escChar).flatten ++ '"' :: rest with hT
      unfold escChar
      by_cases h1 : c = '"'
      · subst h1; simp [parseStrChars, ih]
      · by_cases h2 : c = '\\'
        · subst h2; simp [parseStrChars, ih]
        · by_cases h3 : c = '\x08'
          · subst h3; simp [parseStrChars, ih]
          · by_cases h4 : c = '\t'
            · subst h4; simp [parseStrChars, ih]
            · by_cases h5 : c = '\n'
              · subst h5; simp [parseStrChars, ih]
              · by_cases h6 : c = '\x0c'
                · subst h6; simp [parseStrChars, ih]
                · by_cases h7 : c = '\r'
                  · subst h7; simp [parseStrChars, ih]
                  · by_cases h8 : c.toNat < 0x20
                    · simp only [h1, h2, h3, h4, h5, h6, h7, h8, if_false, if_true, ite_true,
                        ite_false, List.cons_append, List.nil_append]
                      have hq : hexVal ('0' : Char) = some 0 := rfl
                      have hd1 : hexVal (hexDig (c.toNat / 16)) = some (c.toNat / 16) :=
                        hexVal_hexDig _ (by omega)
                      have hd2 : hexVal (hexDig (c.toNat % 16)) = some (c.toNat % 16) :=
                        hexVal_hexDig _ (by omega)
                      have hn : ((0 * 16 + 0) * 16 + c.toNat / 16) * 16 + c.toNat % 16 = c.toNat := by
                        omega
                      simp only [parseStrChars, if_neg (by decide : ¬('\\' : Char) = '"'),
                        if_pos rfl, hq, hd1, hd2]
                      rw [if_neg (by decide : ¬('u' : Char) = '"')]
                      simp only [if_neg (by decide : ¬('u' : Char) = '\\'),
                        if_neg (by decide : ¬('u' : Char) = '/'),
                        if_neg (by decide : ¬('u' : Char) = 'b'),
                        if_neg (by decide : ¬('u' : Char) = 'f'),
                        if_neg (by decide : ¬('u' : Char) = 'n'),
                        if_neg (by decide : ¬('u' : Char) = 'r'),
                        if_neg (by decide : ¬('u' : Char) = 't'),
                        if_pos rfl]
                      rw [hn]
                      rw [dif_pos (by omega : c.toNat < 0xd800 ∨ (0xe000 ≤ c.toNat ∧ c.toNat < 0x110000))]
                      rw [ih]
                      simp [Char.ofNat_toNat]
                    · simp only [h1, h2, h3, h4, h5, h6, h7, h8, if_false, ite_false,
                        List.cons_append, List.nil_append]
                      simp [parseStrChars, h1, h2, h8, ih]

theorem strArr_acons (v : J) (tl : JArr) :
    strArr (.acons v tl) = strJ v ++ arrSep tl := by
  cases tl <;> simp [strArr, arrSep, objSep]

theorem strObj_ocons (k : String) (v : J) (tl : JObj) :
    strObj (.ocons k v tl) = quoteStr k ++ ':' :: (strJ v ++ objSep tl) := by
  cases tl <;> simp [strObj, objSep]

theorem escChar_length_pos (c : Char) : 1 ≤ (escChar c).length := by
  unfold escChar; split_ifs <;> simp

theorem length_le_escFlatten (cs : List Char) :
    cs.length ≤ (cs.map escChar).flatten.length := by
  induction cs with
  | nil => simp
  | cons c cs ih =>
    simp only [List.map_cons, List.flatten_cons, List.length_append, List.length_cons]
    have := escChar_length_pos c
    omega

theorem strJ_head (v : J) : ∃ t, strJ v = '\x7b' :: t ∨ strJ v = '[' :: t ∨
    strJ v = '"' :: t ∨ strJ v = 't' :: t ∨ strJ v = 'f' :: t ∨ strJ v = 'n' :: t := by
  cases v with
  | jnull => exact ⟨['u', 'l', 'l'], by right; right; right; right; right; rfl⟩
  | jbool b =>
    cases b with
    | true => exact ⟨['r', 'u', 'e'], by right; right; right; left; rfl⟩
    | false => exact ⟨['a', 'l', 's', 'e'], by right; right; right; right; left; rfl⟩
  | jstr s =>
    exact ⟨(s.data.map escChar).flatten ++ ['"'], by right; right; left; rfl⟩
  | jarr a => exact ⟨strArr a ++ [']'], by right; left; rfl⟩
  | jobj o => exact ⟨strObj o ++ ['\x7d'], by left; rfl⟩

theorem strJ_length_pos (v : J) : 1 ≤ (strJ v).length := by
  obtain ⟨t, h⟩ := strJ_head v
  rcases h with h | h | h | h | h | h <;> simp [h]

theorem skipWs_lcurl (l : List Char) : skipWsJson ('\x7b' :: l) = '\x7b' :: l :=
  skipWsJson_cons_not _ _ (by decide)

theorem skipWs_rcurl (l : List Char) : skipWsJson ('\x7d' :: l) = '\x7d' :: l :=
  skipWsJson_cons_not _ _ (by decide)

theorem skipWs_lbrack (l : List Char) : skipWsJson ('[' :: l) = '[' :: l :=
  skipWsJson_cons_not _ _ (by decide)

theorem skipWs_rbrack (l : List Char) : skipWsJson (']' :: l) = ']' :: l :=
  skipWsJson_cons_not _ _ (by decide)

theorem skipWs_quote (l : List Char) : skipWsJson ('"' :: l) = '"' :: l :=
  skipWsJson_cons_not _ _ (by decide)

theorem skipWs_comma (l : List Char) : skipWsJson (',' :: l) = ',' :: l :=
  skipWsJson_cons_not _ _ (by decide)

theorem skipWs_colon (l : List Char) : skipWsJson (':' :: l) = ':' :: l :=
  skipWsJson_cons_not _ _ (by decide)

theorem skipWs_t (l : List Char) : skipWsJson ('t' :: l) = 't' :: l :=
  skipWsJson_cons_not _ _ (by decide)

theorem skipWs_f (l : List Char) : skipWsJson ('f' :: l) = 'f' :: l :=
  skipWsJson_cons_not _ _ (by decide)

theorem skipWs_n (l : List Char) : skipWsJson ('n' :: l) = 'n' :: l :=
  skipWsJson_cons_not _ _ (by decide)

theorem sizeA_head_le (v : J) (tl : JArr) : sizeJ v + 1 ≤ sizeA (.acons v tl) := by
  simp only [sizeA]
  exact Nat.succ_le_succ (Nat.le_max_left _ _)

theorem sizeA_tail_le (v : J) (tl : JArr) : sizeA tl + 1 ≤ sizeA (.acons v tl) := by
  simp only [sizeA]
  exact Nat.succ_le_succ (Nat.le_max_right _ _)

theorem sizeO_head_le (k : String) (v : J) (tl : JObj) :
    sizeJ v + 1 ≤ sizeO (.ocons k v tl) := by
  simp only [sizeO]
  exact Nat.succ_le_succ (Nat.le_max_left _ _)

theorem sizeO_tail_le (k : String) (v : J) (tl : JObj) :
    sizeO tl + 1 ≤ sizeO (.ocons k v tl) := by
  simp only [sizeO]
  exact Nat.succ_le_succ (Nat.le_max_right _ _)

mutual
theorem parseVal_round : ∀ (j : J) (fuel : Nat) (rest : List Char), sizeJ j ≤ fuel →
    parseVal fuel (strJ j ++ rest) = some (j, rest)
  | .jnull, fuel, rest, h => by
    cases fuel with
    | zero => simp [sizeJ] at h
    | succ f =>
      show parseVal (f + 1) ('n' :: 'u' :: 'l' :: 'l' :: rest) = _
      simp only [parseVal, skipWs_n]
      simp [List.isPrefixOf]
  | .jbool true, fuel, rest, h => by
    cases fuel with
    | zero => simp [sizeJ] at h
    | succ f =>
      show parseVal (f + 1) ('t' :: 'r' :: 'u' :: 'e' :: rest) = _
      simp only [parseVal, skipWs_t]
      simp [List.isPrefixOf]
  | .jbool false, fuel, rest, h => by
    cases fuel with
    | zero => simp [sizeJ] at h
    | succ f =>
      show parseVal (f + 1) ('f' :: 'a' :: 'l' :: 's' :: 'e' :: rest) = _
      simp only [parseVal, skipWs_f]
      simp [List.isPrefixOf]
  | .jstr s, fuel, rest, h => by
    cases fuel with
    | zero => simp [sizeJ] at h
    | succ f =>
      have hq : strJ (.jstr s) ++ rest =
          '"' :: ((s.data.map escChar).flatten ++ '"' :: rest) := by
        simp [strJ, quoteStr]
      rw [hq]
      have hps := parseStrChars_round s.data rest
        (((s.data.map escChar).flatten ++ '"' :: rest).length + 1)
        (by have := length_le_escFlatten s.data
            simp only [List.length_append, List.length_cons]
            omega)
      simp only [parseVal, skipWs_quote, hps]
      rfl
  | .jarr .anil, fuel, rest, h => by
    cases fuel with
    | zero => simp [sizeJ, sizeA] at h
    | succ f =>
      show parseVal (f + 1) ('[' :: ']' :: rest) = _
      simp only [parseVal, skipWs_lbrack, skipWs_rbrack]
  | .jarr (.acons v tl), fuel, rest, h => by
    cases fuel with
    | zero => simp [sizeJ, sizeA] at h
    | succ f =>
      have harr : strJ (.jarr (.acons v tl)) ++ rest =
          '[' :: (strArr (.acons v tl) ++ ']' :: rest) := by
        simp [strJ]
      rw [harr]
      have hsz : sizeA (.acons v tl) ≤ f := by simp [sizeJ] at h; omega
      have he := parseElems_round v tl f rest hsz
      obtain ⟨t, ht⟩ := strJ_head v
      rw [strArr_acons] at he ⊢
      rcases ht with ht | ht | ht | ht | ht | ht <;>
      · rw [ht] at he ⊢
        simp only [List.cons_append, List.append_assoc] at he ⊢
        simp only [parseVal, skipWs_lbrack, skipWs_lcurl, skipWs_quote, skipWs_t,
          skipWs_f, skipWs_n, he]
        rfl
  | .jobj .onil, fuel, rest, h => by
    cases fuel with
    | zero => simp [sizeJ, sizeO] at h
    | succ f =>
      show parseVal (f + 1) ('\x7b' :: '\x7d' :: rest) = _
      simp only [parseVal, skipWs_lcurl, skipWs_rcurl]
  | .jobj (.ocons k v tl), fuel, rest, h => by
    cases fuel with
    | zero => simp [sizeJ, sizeO] at h
    | succ f =>
      have hsz : sizeO (.ocons k v tl) ≤ f := by simp [sizeJ] at h; omega
      have hm := parseMembers_round k v tl f rest hsz
      have hob : strJ (.jobj (.ocons k v tl)) ++ rest =
          '\x7b' :: (strObj (.ocons k v tl) ++ '\x7d' :: rest) := by
        simp [strJ]
      rw [hob]
      have hshape : strObj (.ocons k v tl) ++ '\x7d' :: rest =
          '"' :: ((k.data.map escChar).flatten ++
            '"' :: ':' :: (strJ v ++ (objSep tl ++ '\x7d' :: rest))) := by
        rw [strObj_ocons]
        simp [quoteStr, List.append_assoc]
      rw [hshape] at hm ⊢
      simp only [parseVal, skipWs_lcurl, skipWs_quote, hm]
      rfl
termination_by j _ _ _ => sizeOf j

theorem parseElems_round : ∀ (v : J) (tl : JArr) (fuel : Nat) (rest : List Char),
    sizeA (.acons v tl) ≤ fuel →
    parseElems fuel (strArr (.acons v tl) ++ ']' :: rest) = some (.acons v tl, rest)
  | v, tl, fuel, rest, h => by
    cases fuel with
    | zero => simp [sizeA] at h
    | succ f =>
      have hv := parseVal_round v f (arrSep tl ++ ']' :: rest)
        (by have := sizeA_head_le v tl; omega)
      rw [strArr_acons, List.append_assoc]
      cases tl with
      | anil =>
        simp only [arrSep, List.nil_append] at hv ⊢
        simp only [parseElems, hv, skipWs_rbrack]
      | acons w tl2 =>
        have he := parseElems_round w tl2 f rest
          (by have := sizeA_tail_le v (JArr.acons w tl2); omega)
        simp only [arrSep, List.cons_append] at hv ⊢
        simp only [parseElems, hv, skipWs_comma, he]
        rfl
termination_by v tl _ _ _ => sizeOf (JArr.acons v tl)

theorem parseMembers_round : ∀ (k : String) (v : J) (tl : JObj) (fuel : Nat) (rest : List Char),
    sizeO (.ocons k v tl) ≤ fuel →
    parseMembers fuel (strObj (.ocons k v tl) ++ '\x7d' :: rest) = some (.ocons k v tl, rest)
  | k, v, tl, fuel, rest, h => by
    cases fuel with
    | zero => simp [sizeO] at h
    | succ f =>
      have hv := parseVal_round v f (objSep tl ++ '\x7d' :: rest)
        (by have := sizeO_head_le k v tl; omega)
      have hshape : strObj (.ocons k v tl) ++ '\x7d' :: rest =
          '"' :: ((k.data.map escChar).flatten ++
            '"' :: ':' :: (strJ v ++ (objSep tl ++ '\x7d' :: rest))) := by
        rw [strObj_ocons]
        simp [quoteStr, List.append_assoc]
      rw [hshape]
      have hps := parseStrChars_round k.data
        (':' :: (strJ v ++ (objSep tl ++ '\x7d' :: rest)))
        (((k.data.map escChar).flatten ++
          '"' :: ':' :: (strJ v ++ (objSep tl ++ '\x7d' :: rest))).length + 1)
        (by have := length_le_escFlatten k.data
            simp only [List.length_append, List.length_cons]
            omega)
      cases tl with
      | onil =>
        simp only [objSep, List.nil_append] at hv hps ⊢
        simp only [parseMembers, skipWs_quote, hps, skipWs_colon, hv, skipWs_rcurl]
      | ocons k2 w tl2 =>
        have hm := parseMembers_round k2 w tl2 f rest
          (by have := sizeO_tail_le k v (JObj.ocons k2 w tl2); omega)
        simp only [objSep, List.cons_append] at hv hps ⊢
        simp only [parseMembers, skipWs_quote, hps, skipWs_colon, hv, skipWs_comma, hm]
        rfl
termination_by k v tl _ _ _ => sizeOf (JObj.ocons k v tl)
end

theorem quoteStr_length (k : String) : 2 ≤ (quoteStr k).length := by
  simp [quoteStr]

mutual
theorem sizeJ_le_length : ∀ j : J, sizeJ j ≤ (strJ j).length
  | .jnull => by simp [sizeJ, strJ]
  | .jbool true => by simp [sizeJ, strJ]
  | .jbool false => by simp [sizeJ, strJ]
  | .jstr s => by simp [sizeJ, strJ, quoteStr]
  | .jarr .anil => by simp [sizeJ, sizeA, strJ, strArr]
  | .jarr (.acons v tl) => by
    have := sizeA_le_length v tl
    simp only [sizeJ, strJ, List.length_cons, List.length_append, List.length_singleton]
    omega
  | .jobj .onil => by simp [sizeJ, sizeO, strJ, strObj]
  | .jobj (.ocons k v tl) => by
    have := sizeO_le_length k v tl
    simp only [sizeJ, strJ, List.length_cons, List.length_append, List.length_singleton]
    omega
termination_by j => sizeOf j

theorem sizeA_le_length : ∀ (v : J) (tl : JArr),
    sizeA (.acons v tl) ≤ (strArr (.acons v tl)).length + 1
  | v, .anil => by
    have h1 := sizeJ_le_length v
    have h0 := strJ_length_pos v
    have e1 : sizeA (JArr.acons v JArr.anil) = max (sizeJ v) 1 + 1 := rfl
    have e2 : strArr (JArr.acons v JArr.anil) = strJ v := rfl
    rw [e1, e2]
    exact Nat.succ_le_succ (Nat.max_le.mpr ⟨by omega, by omega⟩)
  | v, .acons w tl2 => by
    have h1 := sizeJ_le_length v
    have h2 := sizeA_le_length w tl2
    have e1 : sizeA (JArr.acons v (JArr.acons w tl2)) =
        max (sizeJ v) (sizeA (JArr.acons w tl2)) + 1 := rfl
    have e2 : (strArr (JArr.acons v (JArr.acons w tl2))).length =
        (strJ v).length + 1 + (strArr (JArr.acons w tl2)).length := by
      show (strJ v ++ ',' :: strArr (JArr.acons w tl2)).length = _
      rw [List.length_append, List.length_cons]
      omega
    rw [e1, e2]
    have hm : max (sizeJ v) (sizeA (JArr.acons w tl2)) ≤
        (strJ v).length + 1 + (strArr (JArr.acons w tl2)).length :=
      Nat.max_le.mpr ⟨by omega, by omega⟩
    omega
termination_by v tl => sizeOf (JArr.acons v tl)

theorem sizeO_le_length : ∀ (k : String) (v : J) (tl : JObj),
    sizeO (.ocons k v tl) ≤ (strObj (.ocons k v tl)).length + 1
  | k, v, .onil => by
    have h1 := sizeJ_le_length v
    have e1 : sizeO (JObj.ocons k v JObj.onil) = max (sizeJ v) 1 + 1 := rfl
    have e2 : (strObj (JObj.ocons k v JObj.onil)).length =
        (quoteStr k).length + (strJ v).length + 1 := by
      show (quoteStr k ++ ':' :: strJ v).length = _
      rw [List.length_append, List.length_cons]
      omega
    rw [e1, e2]
    have hm : max (sizeJ v) 1 ≤ (quoteStr k).length + (strJ v).length + 1 :=
      Nat.max_le.mpr ⟨by omega, by omega⟩
    omega
  | k, v, .ocons k2 w tl2 => by
    have h1 := sizeJ_le_length v
    have h2 := sizeO_le_length k2 w tl2
    have e1 : sizeO (JObj.ocons k v (JObj.ocons k2 w tl2)) =
        max (sizeJ v) (sizeO (JObj.ocons k2 w tl2)) + 1 := rfl
    have e2 : (strObj (JObj.ocons k v (JObj.ocons k2 w tl2))).length =
        (quoteStr k).length + (strJ v).length +
          (strObj (JObj.ocons k2 w tl2)).length + 2 := by
      simp only [strObj]
      rw [List.length_append, List.length_cons, List.length_append, List.length_cons]
      omega
    rw [e1, e2]
    have hm : max (sizeJ v) (sizeO (JObj.ocons k2 w tl2)) ≤
        (quoteStr k).length + (strJ v).length +
          (strObj (JObj.ocons k2 w tl2)).length + 2 :=
      Nat.max_le.mpr ⟨by omega, by omega⟩
    omega
termination_by k v tl => sizeOf (JObj.ocons k v tl)
end

theorem jsonParse_strJ (j : J) : jsonParse (strJ j) = some j := by
  have h := parseVal_round j ((strJ j).length + 1) []
    (by have := sizeJ_le_length j; omega)
  rw [List.append_nil] at h
  simp [jsonParse, h, skipWsJson]


-- ===== extraction lemmas =====

theorem tix_eq : "```".data = ['\x60', '\x60', '\x60'] := rfl

theorem hasSub_of_isPrefixOf (pat : List Char) :
    ∀ (a1 a2 : List Char), pat.isPrefixOf a2 = true → hasSub (a1 ++ a2) pat = true := by
  intro a1
  induction a1 with
  | nil =>
    intro a2 h
    cases a2 with
    | nil =>
      cases pat with
      | nil => simp [hasSub]
      | cons p ps => simp [List.isPrefixOf] at h
    | cons c cs => simp [hasSub, h]
  | cons c cs ih =>
    intro a2 h
    simp only [List.cons_append, hasSub]
    simp [List.append_eq, ih a2 h]

theorem hasSub_false_of_no_tick (l : List Char) (h : '\x60' ∉ l) :
    hasSub l "```".data = false := by
  induction l with
  | nil => simp [hasSub, tix_eq]
  | cons c cs ih =>
    have hc : c ≠ '\x60' := fun e => h (e ▸ List.mem_cons_self c cs)
    have hcs : '\x60' ∉ cs := fun m => h (List.mem_cons_of_mem c m)
    simp only [hasSub, Bool.or_eq_false_iff]
    refine ⟨?_, ih hcs⟩
    simp [tix_eq, List.isPrefixOf, Ne.symm hc]

theorem splitFirst_eq_none_of_hasSub_false (pat : List Char) :
    ∀ l, hasSub l pat = false → splitFirst pat l = none := by
  intro l
  induction l with
  | nil =>
    intro h
    simp only [hasSub] at h
    simp [splitFirst, h]
  | cons c rest ih =>
    intro h
    simp only [hasSub, Bool.or_eq_false_iff] at h
    simp [splitFirst, h.1, ih h.2]

theorem fencedInner_eq_none (l : List Char) (h : '\x60' ∉ l) : fencedInner l = none := by
  simp [fencedInner, splitFirst_eq_none_of_hasSub_false _ l (hasSub_false_of_no_tick l h)]

theorem splitFirst_tix_self (R : List Char) :
    splitFirst "```".data ("```".data ++ R) = some ([], R) := by
  show splitFirst "```".data ('\x60' :: '\x60' :: '\x60' :: R) = some ([], R)
  simp [splitFirst, tix_eq, List.isPrefixOf]

theorem splitFirst_exact_no_tick (b : List Char) :
    ∀ X, '\x60' ∉ X → splitFirst "```".data (X ++ "```".data ++ b) = some (X, b) := by
  intro X
  induction X with
  | nil =>
    intro _
    show splitFirst "```".data ('\x60' :: '\x60' :: '\x60' :: b) = some ([], b)
    simp [splitFirst, tix_eq, List.isPrefixOf]
  | cons c X2 ih =>
    intro h
    have hc : c ≠ '\x60' := fun e => h (e ▸ List.mem_cons_self c X2)
    have hX2 : '\x60' ∉ X2 := fun m => h (List.mem_cons_of_mem c m)
    have hpre : ("```".data).isPrefixOf (c :: (X2 ++ "```".data ++ b)) = false := by
      rw [tix_eq]
      simp [List.isPrefixOf, Ne.symm hc]
    have h2 := ih hX2
    show splitFirst "```".data (c :: (X2 ++ "```".data ++ b)) = some (c :: X2, b)
    simp only [splitFirst]
    rw [hpre]
    simp only [tix_eq, List.append_assoc, List.cons_append, List.nil_append] at h2
    simp [h2]

theorem ciMatches_json (R : List Char) :
    ciMatches ['j', 's', 'o', 'n'] ('j' :: 's' :: 'o' :: 'n' :: R) = true := by
  simp [ciMatches]

theorem firstIdx_append_cons (c : Char) (a R : List Char) (h : c ∉ a) :
    firstIdx c (a ++ c :: R) = some a.length := by
  induction a with
  | nil => simp [firstIdx]
  | cons x xs ih =>
    have hx : x ≠ c := fun e => h (e ▸ List.mem_cons_self x xs)
    have hxs : c ∉ xs := fun m => h (List.mem_cons_of_mem x m)
    simp [firstIdx, hx, ih hxs]

theorem lastIdx_append_cons (c : Char) (L R : List Char) (h : c ∉ R) :
    lastIdx c (L ++ c :: R) = some L.length := by
  unfold lastIdx
  have hrev : (L ++ c :: R).reverse = R.reverse ++ c :: L.reverse := by
    simp [List.reverse_cons]
  rw [hrev]
  rw [firstIdx_append_cons c _ _ (by simpa using h)]
  simp only [Option.map_some']
  congr 1
  simp [List.length_append, List.length_cons, List.length_reverse]

theorem parseVal_none_of_badhead (fuel : Nat) (l : List Char) (c : Char) (t : List Char)
    (hs : skipWsJson l = c :: t)
    (h1 : c ≠ '\x7b') (h2 : c ≠ '[') (h3 : c ≠ '"')
    (h4 : c ≠ 't') (h5 : c ≠ 'f') (h6 : c ≠ 'n') :
    parseVal fuel l = none := by
  cases fuel with
  | zero => rfl
  | succ f =>
    simp only [parseVal, hs]
    split <;> simp_all

theorem skipWsJson_append_of_head (p1 rest : List Char) (c : Char) (t : List Char)
    (h : skipWsJson p1 = c :: t) :
    skipWsJson (p1 ++ rest) = c :: (t ++ rest) := by
  unfold skipWsJson at h ⊢
  rw [List.dropWhile_append, h]
  simp

theorem jsTrimL_sandwich (c : Char) (mid Y : List Char) (e : Char)
    (hce : c :: mid = Y ++ [e]) (h1 : isJsWs c = false) (h2 : isJsWs e = false) :
    jsTrimL ('\n' :: ((c :: mid) ++ ['\n'])) = c :: mid := by
  have hnl : isJsWs '\n' = true := by decide
  unfold jsTrimL
  have d1 : List.dropWhile isJsWs ('\n' :: ((c :: mid) ++ ['\n'])) =
      (c :: mid) ++ ['\n'] := by
    simp [List.dropWhile_cons, hnl, h1]
  rw [d1]
  have hrev : ((c :: mid) ++ ['\n']).reverse = '\n' :: (c :: mid).reverse := by
    simp
  rw [hrev]
  have hrev2 : (c :: mid).reverse = e :: Y.reverse := by
    rw [hce]
    simp
  rw [hrev2]
  have d2 : List.dropWhile isJsWs ('\n' :: e :: Y.reverse) = e :: Y.reverse := by
    simp [List.dropWhile_cons, hnl, h2]
  rw [d2]
  rw [show (e :: Y.reverse).reverse = Y ++ [e] by simp]
  exact hce.symm

theorem strJ_last (v : J) : ∃ Y, strJ v = Y ++ ['\x7d'] ∨ strJ v = Y ++ [']'] ∨
    strJ v = Y ++ ['"'] ∨ strJ v = Y ++ ['l'] ∨ strJ v = Y ++ ['e'] := by
  cases v with
  | jnull => exact ⟨['n', 'u', 'l'], by right; right; right; left; rfl⟩
  | jbool b =>
    cases b with
    | true => exact ⟨['t', 'r', 'u'], by right; right; right; right; rfl⟩
    | false => exact ⟨['f', 'a', 'l', 's'], by right; right; right; right; rfl⟩
  | jstr s => exact ⟨'"' :: (s.data.map escChar).flatten, by right; right; left; rfl⟩
  | jarr a => exact ⟨'[' :: strArr a, by right; left; rfl⟩
  | jobj o => exact ⟨'\x7b' :: strObj o, by left; rfl⟩

theorem jsTrimL_wrap_strJ (j : J) : jsTrimL ('\n' :: (strJ j ++ ['\n'])) = strJ j := by
  obtain ⟨t, ht⟩ := strJ_head j
  obtain ⟨Y, hy⟩ := strJ_last j
  have hhead : ∃ cc mid2, strJ j = cc :: mid2 ∧ isJsWs cc = false := by
    rcases ht with h | h | h | h | h | h <;> exact ⟨_, _, h, by decide⟩
  have hlast : ∃ Y2 ee, strJ j = Y2 ++ [ee] ∧ isJsWs ee = false := by
    rcases hy with h | h | h | h | h <;> exact ⟨_, _, h, by decide⟩
  obtain ⟨cc, mid2, hcm, hws1⟩ := hhead
  obtain ⟨Y2, ee, hye, hws2⟩ := hlast
  rw [hcm]
  exact jsTrimL_sandwich cc mid2 Y2 ee (hcm ▸ hye) hws1 hws2


theorem c8_part1 (j : J) (hj : '\x60' ∉ strJ j) :
    robustJsonExtract (jsonStringify j) = .ok j := by
  have hdata : (jsonStringify j).data = strJ j := rfl
  have hne : jsonStringify j ≠ "" := by
    intro e
    have h0 := congrArg String.data e
    rw [hdata] at h0
    have h1 := strJ_length_pos j
    rw [h0] at h1
    exact absurd h1 (by decide)
  unfold robustJsonExtract
  rw [if_neg hne, hdata, fencedInner_eq_none _ hj]
  simp [jsonParse_strJ j]

theorem c8_part2 (j : J) (hj : '\x60' ∉ strJ j) :
    robustJsonExtract ("```json\n" ++ jsonStringify j ++ "\n```") = .ok j := by
  have hw : ("```json\n" ++ jsonStringify j ++ "\n```").data =
      "```".data ++ ('j' :: 's' :: 'o' :: 'n' :: '\n' :: (strJ j ++ '\n' :: "```".data)) := by
    show ("```json\n".data ++ strJ j) ++ "\n```".data = _
    rw [show "```json\n".data = "```".data ++ ['j', 's', 'o', 'n', '\n'] from rfl,
        show "\n```".data = '\n' :: "```".data from rfl]
    simp [List.append_assoc]
  have hsplit : splitFirst "```".data ('\n' :: (strJ j ++ '\n' :: "```".data)) =
      some ('\n' :: (strJ j ++ ['\n']), []) := by
    have hX : '\x60' ∉ '\n' :: (strJ j ++ ['\n']) := by
      simp [hj]
    have h3 := splitFirst_exact_no_tick [] ('\n' :: (strJ j ++ ['\n'])) hX
    simpa [tix_eq, List.append_assoc] using h3
  have hfi : fencedInner ("```json\n" ++ jsonStringify j ++ "\n```").data = some (strJ j) := by
    rw [hw]
    unfold fencedInner
    rw [splitFirst_tix_self]
    simp only [show "json".data = ['j', 's', 'o', 'n'] from rfl, ciMatches_json,
      eq_self_iff_true, if_true, List.drop_succ_cons, List.drop_zero]
    simp only [tix_eq] at hsplit
    rw [hsplit]
    simp [jsTrimL_wrap_strJ]
  have hdne : ("```json\n" ++ jsonStringify j ++ "\n```").data ≠ [] := by
    rw [hw]
    simp [tix_eq]
  have hne : ("```json\n" ++ jsonStringify j ++ "\n```") ≠ "" := fun e => hdne (by rw [e])
  unfold robustJsonExtract
  rw [if_neg hne, hfi]
  simp [jsonParse_strJ j]

theorem c8_part3 (o : JObj) (p1 p2 : String)
    (ho : '\x60' ∉ strJ (J.jobj o))
    (hp1t : '\x60' ∉ p1.data) (hp1b : '\x7b' ∉ p1.data)
    (hp2t : '\x60' ∉ p2.data) (hp2r : '\x7d' ∉ p2.data)
    (hlead : proseLeadB p1.data = true) :
    robustJsonExtract (p1 ++ jsonStringify (J.jobj o) ++ p2) = .ok (J.jobj o) := by
  have hw2 : (p1 ++ jsonStringify (J.jobj o) ++ p2).data =
      p1.data ++ (strJ (J.jobj o) ++ p2.data) := by
    show (p1.data ++ strJ (J.jobj o)) ++ p2.data = _
    rw [List.append_assoc]
  obtain ⟨c, t, hpl⟩ : ∃ c t, skipWsJson p1.data = c :: t := by
    cases hq : skipWsJson p1.data with
    | nil =>
      simp only [proseLeadB, hq] at hlead
      exact Bool.noConfusion hlead
    | cons c t => exact ⟨c, t, rfl⟩
  have hbad : ¬c = '\x7b' ∧ ¬c = '[' ∧ ¬c = '"' ∧ ¬c = 't' ∧ ¬c = 'f' ∧ ¬c = 'n' := by
    simp only [proseLeadB, hpl] at hlead
    simp at hlead
    tauto
  have hskip := skipWsJson_append_of_head p1.data (strJ (J.jobj o) ++ p2.data) c t hpl
  have hjp : jsonParse (p1.data ++ (strJ (J.jobj o) ++ p2.data)) = none := by
    unfold jsonParse
    rw [parseVal_none_of_badhead _ _ c _ hskip hbad.1 hbad.2.1 hbad.2.2.1
      hbad.2.2.2.1 hbad.2.2.2.2.1 hbad.2.2.2.2.2]
  have hobj : strJ (J.jobj o) = '\x7b' :: (strObj o ++ ['\x7d']) := rfl
  have hfirst : firstIdx '\x7b' (p1.data ++ (strJ (J.jobj o) ++ p2.data)) =
      some p1.data.length := by
    rw [hobj]
    rw [show ('\x7b' :: (strObj o ++ ['\x7d'])) ++ p2.data =
      '\x7b' :: ((strObj o ++ ['\x7d']) ++ p2.data) from rfl]
    exact firstIdx_append_cons _ _ _ hp1b
  have hlastEq : p1.data ++ (strJ (J.jobj o) ++ p2.data) =
      (p1.data ++ ('\x7b' :: strObj o)) ++ ('\x7d' :: p2.data) := by
    rw [hobj]
    simp [List.append_assoc]
  have hlast : lastIdx '\x7d' (p1.data ++ (strJ (J.jobj o) ++ p2.data)) =
      some (p1.data.length + (1 + (strObj o).length)) := by
    rw [hlastEq, lastIdx_append_cons _ _ _ hp2r]
    congr 1
    simp [List.length_append]
    omega
  have hdrop : (p1.data ++ (strJ (J.jobj o) ++ p2.data)).drop p1.data.length =
      strJ (J.jobj o) ++ p2.data := List.drop_left _ _
  have htakeLen : p1.data.length + (1 + (strObj o).length) + 1 - p1.data.length =
      (strJ (J.jobj o)).length := by
    rw [hobj]
    simp [List.length_append]
    omega
  have htake : (strJ (J.jobj o) ++ p2.data).take ((strJ (J.jobj o)).length) =
      strJ (J.jobj o) := List.take_left _ _
  have hnt : '\x60' ∉ p1.data ++ (strJ (J.jobj o) ++ p2.data) := by
    simp [hp1t, hp2t, ho]
  have hdne : (p1 ++ jsonStringify (J.jobj o) ++ p2).data ≠ [] := by
    rw [hw2, hobj]
    simp
  have hne : (p1 ++ jsonStringify (J.jobj o) ++ p2) ≠ "" := fun e => hdne (by rw [e])
  unfold robustJsonExtract
  rw [if_neg hne, hw2, fencedInner_eq_none _ hnt]
  simp only [hjp, hfirst, hlast]
  rw [hdrop, htakeLen, htake]
  simp [jsonParse_strJ (J.jobj o)]

/-- C8 counterexample: the extractor does not round-trip on every serialized
manifest.  A manifest whose string value contains a pair of triple-backtick
fences serializes to text the fenced-block regex matches, so the extractor
parses the fence interior instead of the whole document and fails. -/
theorem c8_counterexample :
    robustJsonExtract (jsonStringify
      (J.jobj (JObj.ocons "files" (J.jstr "x```y```z") JObj.onil))) =
    .error "Invalid JSON from model" := by decide

/-- C8 (amended): for a manifest whose serialization contains no backtick,
`robustJsonExtract` recovers it from the bare serialization, from the
serialization wrapped in a ```json code fence, and (for an object manifest)
from the serialization wrapped in prose, provided the prose contains no
backtick, the leading prose contains no opening brace and starts, after
whitespace, with a character that cannot begin a JSON value, and the
trailing prose contains no closing brace. -/
theorem c8_amended (j : J) (o : JObj) (p1 p2 : String)
    (hj : '\x60' ∉ strJ j)
    (ho : '\x60' ∉ strJ (J.jobj o))
    (hp1t : '\x60' ∉ p1.data) (hp1b : '\x7b' ∉ p1.data)
    (hp2t : '\x60' ∉ p2.data) (hp2r : '\x7d' ∉ p2.data)
    (hlead : proseLeadB p1.data = true) :
    robustJsonExtract (jsonStringify j) = .ok j ∧
    robustJsonExtract ("```json\n" ++ jsonStringify j ++ "\n```") = .ok j ∧
    robustJsonExtract (p1 ++ jsonStringify (J.jobj o) ++ p2) = .ok (J.jobj o) :=
  ⟨c8_part1 j hj, c8_part2 j hj, c8_part3 o p1 p2 ho hp1t hp1b hp2t hp2r hlead⟩

/-- Witness for the amended C8 at a concrete manifest and concrete prose. -/
theorem c8_amended_witness :
    robustJsonExtract (jsonStringify
      (J.jobj (JObj.ocons "files" (J.jarr JArr.anil) JObj.onil))) =
      .ok (J.jobj (JObj.ocons "files" (J.jarr JArr.anil) JObj.onil)) ∧
    robustJsonExtract ("```json\n" ++ jsonStringify
      (J.jobj (JObj.ocons "files" (J.jarr JArr.anil) JObj.onil)) ++ "\n```") =
      .ok (J.jobj (JObj.ocons "files" (J.jarr JArr.anil) JObj.onil)) ∧
    robustJsonExtract ("Here is the JSON: " ++ jsonStringify
      (J.jobj (JObj.ocons "k" (J.jbool true) JObj.onil)) ++ " Hope this helps!") =
      .ok (J.jobj (JObj.ocons "k" (J.jbool true) JObj.onil)) :=
  c8_amended
    (J.jobj (JObj.ocons "files" (J.jarr JArr.anil) JObj.onil))
    (JObj.ocons "k" (J.jbool true) JObj.onil)
    "Here is the JSON: " " Hope this helps!"
    (by decide) (by decide) (by decide) (by decide) (by decide) (by decide) (by decide)


/-! ## Claim C1 — totality of the repair engine -/

/-- C2: the spec route never reaches the hero-prompt override.  For every
extracted manifest that survives the repair guard, the route fails with the
`ReferenceError` of line 1280 (`paletteForAI` is local to
`validateAndEnhanceManifest`), so no repaired manifest — with or without an
overridden hero prompt — is ever produced or persisted. -/
theorem c2_code_bug (m : Manifest) (u : UserData) (fs : List FileEntry)
    (h : m.files = some fs) :
    generateSpecPostProcess m u = .error "ReferenceError: paletteForAI is not defined" := by
  cases m with
  | mk files an ud ap =>
    cases h
    rfl

/-- C2 witness: a concrete well-formed extraction fails with the
`ReferenceError`. -/
theorem c2_code_bug_witness :
    generateSpecPostProcess { files := some [] } { title := some "Engineer" } =
      .error "ReferenceError: paletteForAI is not defined" :=
  c2_code_bug { files := some [] } { title := some "Engineer" } [] rfl

/-! ## Claim C5 — no empty nodes and a 100-line stylesheet after repair -/

/-- A markup artifact that already carries every guarded section, so that no
insertion branch fires: header with nav, an about section with two
paragraphs, a skills section with three list items, a projects anchor, a
contact section and a footer — plus one empty `<h2></h2>` heading. -/
def htmlC5 : String :=
  "<body><header><nav></nav></header><main><section id=\"about\"><p>a</p><p>b</p></section><section id=\"skills\"><ul><li>x</li><li>y</li><li>z</li></ul></section><section id=\"projects\"></section><section id=\"contact\"></section><h2></h2></main><footer></footer></body>"

/-- The C5 failing manifest: the markup above as `index.html`. -/
def mC5 : Manifest := { files := some [{ path := some "index.html", content := some htmlC5 }] }

/-- C5: the repair engine computes a fill for the empty `<h2></h2>` but
stores the repaired markup only when a structural insertion set the `fixed`
flag (server.js lines 847-851).  On `mC5` every guard is already satisfied,
so the flag stays false, the computed fills are discarded, and the empty
heading survives repair — against the claim, the spec, and the code's own
stated rules ("EVERY heading MUST contain actual text ... NEVER empty"). -/
theorem c5_code_bug :
    validateAndEnhanceManifest mC5 {} =
        .ok { mC5 with accentPalette := some ["#22D3EE", "#22D3EE", "#22D3EE"] } ∧
      sContains htmlC5 "<h2></h2>" = true ∧
      (fixHtml (resolveUserData {}) htmlC5.data).2 = false := by
  refine ⟨by decide, by decide, by decide⟩

/-! ## Claim C6 — project image prompts after repair -/

/-- A C6 extraction: five project-image prompts and two user projects. -/
def assetsC6 : AssetsNeeded :=
  { heroImage := some "robot hero",
    projectImages := some ["p1", "p2", "p3", "p4", "p5"] }

def mC6 : Manifest := { files := some [], assetsNeeded := some assetsC6 }

/-- The C6 brief. -/
def uC6 : UserData :=
  { projects := some [{ title := some "Shop", desc := some "A store" },
                      { title := some "Blog", desc := some "A blog" }] }

/-- C6: the repair engine itself leaves `assetsNeeded.projectImages` exactly
as extracted (five entries here, neither padded nor truncated to 3), and the
route block that would derive and normalize the prompts (lines 1285-1314)
is unreachable: line 1280 raises the `paletteForAI` `ReferenceError` first,
so the spec phase fails without producing any manifest. -/
theorem c6_code_bug :
    (validateAndEnhanceManifest { mC6 with userData := some uC6 } uC6).map
        (fun m' => m'.assetsNeeded) =
      .ok (some assetsC6) ∧
    generateSpecPostProcess mC6 uC6 =
      .error "ReferenceError: paletteForAI is not defined" := by
  refine ⟨by decide, by decide⟩

/-! ## Claim C7 — idempotence of the repair engine -/

/-- A markup artifact whose only `<nav` sits inside an about section that
the enhancement pass rewrites: the first repair removes it, so the second
repair's nav guard fires again. -/
def htmlC7 : String :=
  "<body><header></header><main><section id=\"about\"><nav></section></main></body>"

/-- The C7 counterexample manifest. -/
def mC7 : Manifest :=
  { files := some [{ path := some "index.html", content := some htmlC7 }] }

/-- C7 counterexample: `repair(repair(m, b), b) ≠ repair(m, b)`.  The first
repair replaces the about section's content (deleting the only `<nav`) and
inserts contact and footer; the second repair then finds `<nav` missing and
splices a navigation block after `<body>`, changing the markup again. -/
theorem c7_counterexample :
    (validateAndEnhanceManifest mC7 {}).bind (fun m1 => validateAndEnhanceManifest m1 {}) ≠
      validateAndEnhanceManifest mC7 {} := by decide

/-- Would a second markup pass set the `fixed` flag (and hence store a new
markup) on the first `index.html` entry of `fs`? -/
def htmlSecondPassFixes (fs : List FileEntry) (u : UserData) : Bool :=
  match fs.find? (fun f => f.path == some "index.html") with
  | some f =>
    match truthyOpt f.content with
    | some h => (fixHtml (resolveUserData u) h.data).2
    | none => false
  | none => false

/-- Is the first `styles.css` entry of `fs` already past the line threshold
(or absent / falsy, which the stage skips)?  This holds automatically for
the output of a first repair. -/
def cssSecondPassStable (fs : List FileEntry) : Bool :=
  match fs.find? (fun f => f.path == some "styles.css") with
  | some f =>
    match truthyOpt f.content with
    | some c => decide (100 ≤ cssLineCount c)
    | none => true
  | none => true

/-- Is the first `script.js` entry of `fs` already substantial?  This holds
automatically for the output of a first repair. -/
def jsSecondPassStable (fs : List FileEntry) : Bool :=
  match fs.find? (fun f => f.path == some "script.js") with
  | some f =>
    match f.content with
    | some c => c ≠ "" && decide (50 ≤ (jsTrim c).length)
    | none => false
  | none => true

theorem updateFirstFile_eq_self (p : FileEntry → Bool) (g : FileEntry → FileEntry)
    (fs : List FileEntry) (h : ∀ f, fs.find? p = some f → g f = f) :
    updateFirstFile p g fs = fs := by
  induction fs with
  | nil => rfl
  | cons f rest ih =>
    by_cases hp : p f
    · have hg := h f (by simp [List.find?_cons_of_pos _ hp])
      simp [updateFirstFile, hp, hg]
    · simp only [updateFirstFile, hp, if_neg, Bool.false_eq_true, ite_false, List.cons.injEq,
        true_and]
      exact ih (fun f' hf' => h f' (by simpa [List.find?_cons_of_neg _ hp] using hf'))

theorem applyHtmlStage_id (u : UserData) (fs : List FileEntry)
    (h : htmlSecondPassFixes fs u = false) :
    applyHtmlStage (resolveUserData u) fs = fs := by
  apply updateFirstFile_eq_self
  intro f hf
  unfold htmlSecondPassFixes at h
  rw [hf] at h
  dsimp only at h
  cases hc : truthyOpt f.content with
  | none => simp [hc]
  | some hs =>
    rw [hc] at h
    dsimp only at h
    simp [hc, h]

theorem applyCssStage_id (r : Resolved) (fs : List FileEntry)
    (h : cssSecondPassStable fs = true) :
    applyCssStage r fs = fs := by
  apply updateFirstFile_eq_self
  intro f hf
  unfold cssSecondPassStable at h
  rw [hf] at h
  dsimp only at h
  cases hc : truthyOpt f.content with
  | none => simp [hc]
  | some c =>
    rw [hc] at h
    simp only [decide_eq_true_eq] at h
    simp [hc, Nat.not_lt.mpr h]

theorem applyJsStage_id (fs : List FileEntry)
    (h : jsSecondPassStable fs = true) :
    applyJsStage fs = fs := by
  apply updateFirstFile_eq_self
  intro f hf
  unfold jsSecondPassStable at h
  rw [hf] at h
  dsimp only at h
  cases hc : f.content with
  | none => rw [hc] at h; exact absurd h (by simp)
  | some c =>
    rw [hc] at h
    simp only [Bool.and_eq_true, ne_eq, decide_eq_true_eq, decide_not] at h
    have hne : ¬c = "" := by simpa using h.1
    simp [hc, hne, Nat.not_lt.mpr h.2]

/-- C7 (amended): the repair engine is idempotent on every manifest whose
first repair leaves nothing for a second pass to trigger: the repaired
markup does not set the `fixed` flag again (no guarded section insertion or
rewrite re-fires), and the stylesheet/script entries are past their
thresholds (which the first repair guarantees whenever those entries are
present and truthy).  In general the engine is not idempotent: a rewrite of
the about section or skills list can delete the only occurrence of a guard
substring such as `<nav`, so a second application inserts a new block
(`c7_counterexample`). -/
theorem c7_amended (m m1 : Manifest) (u : UserData) (fs1 : List FileEntry)
    (h1 : validateAndEnhanceManifest m u = .ok m1)
    (hf : m1.files = some fs1)
    (hhtml : htmlSecondPassFixes fs1 u = false)
    (hcss : cssSecondPassStable fs1 = true)
    (hjs : jsSecondPassStable fs1 = true) :
    validateAndEnhanceManifest m1 u = .ok m1 := by
  cases m with
  | mk files an ud ap =>
    cases files with
    | none => exact absurd h1 (by simp [validateAndEnhanceManifest])
    | some fs0 =>
      simp only [validateAndEnhanceManifest] at h1
      injection h1 with h1
      subst h1
      simp only at hf
      injection hf with hf
      simp only [validateAndEnhanceManifest, hf,
        applyHtmlStage_id u fs1 hhtml, applyCssStage_id _ fs1 hcss, applyJsStage_id fs1 hjs]

/-- C7 witness: a concrete stable manifest is repaired idempotently. -/
theorem c7_amended_witness :
    validateAndEnhanceManifest
        { files := some [], accentPalette := some ["#22D3EE", "#22D3EE", "#22D3EE"] } {} =
      .ok { files := some [], accentPalette := some ["#22D3EE", "#22D3EE", "#22D3EE"] } :=
  c7_amended { files := some [] }
    { files := some [], accentPalette := some ["#22D3EE", "#22D3EE", "#22D3EE"] }
    {} [] (by decide) rfl (by decide) (by decide) (by decide)

/-! ## Claim C3 — per-need failure isolation in the asset phase -/

theorem resolveNeed_fst (genOk phFetchOk : Bool) (w h : Nat) (token relPath outFile : String) :
    (resolveNeed genOk phFetchOk w h token relPath outFile).1 = (token, relPath) := by
  unfold resolveNeed; split <;> rfl

theorem resolveNeed_snd_fst (genOk phFetchOk : Bool) (w h : Nat) (token relPath outFile : String) :
    (resolveNeed genOk phFetchOk w h token relPath outFile).2.1 = outFile := by
  unfold resolveNeed; split <;> rfl

/-- C3: for every manifest with a `files` array and every combination of
per-need synthesis outcomes (`heroOk`, `projOk`) and placeholder-fetch
outcomes (`phFetchOk`), the asset phase succeeds, and the recorded
token → relative-path map and the set of written asset files are exactly the
hero entry plus one entry per generated project need — independent of the
outcomes.  A failed need still gets its file (a placeholder) and its
mapping, and no failure aborts the remaining needs. -/
theorem c3_asset_isolation (m : Manifest) (fs : List FileEntry) (hf : m.files = some fs)
    (heroOk : Bool) (projOk phFetchOk : Nat → Bool) :
    ∃ out, generateAssetsPhase m heroOk projOk phFetchOk = .ok out ∧
      out.replacements =
        ("HERO_IMAGE", "./assets/hero.png") ::
          (List.range (numProjectsToGenerate (assetsProjects m) (assetsImgs m))).map
            (fun i => ("PROJECT_" ++ toString (i + 1) ++ "_IMG",
                       "./assets/project_" ++ toString (i + 1) ++ ".png")) ∧
      out.written.map Prod.fst =
        "assets/hero.png" ::
          (List.range (numProjectsToGenerate (assetsProjects m) (assetsImgs m))).map
            (fun i => "assets/project_" ++ toString (i + 1) ++ ".png") := by
  cases m with
  | mk files an ud ap =>
    cases hf
    refine ⟨_, rfl, ?_, ?_⟩
    · simp [generateAssetsPhase, List.map_map, Function.comp, resolveNeed_fst]
    · simp [generateAssetsPhase, List.map_map, Function.comp, resolveNeed_snd_fst]

/-- The C3 witness brief: two projects. -/
def udC3 : UserData :=
  { projects := some [{ title := some "X", desc := some "Y" },
                      { title := some "Z", desc := some "W" }] }

/-- The C3 witness manifest. -/
def mC3 : Manifest := { files := some [], userData := some udC3 }

/-- C3 witness: two projects, hero succeeds, every project synthesis fails,
every placeholder fetch fails — all three mappings and files are still
produced. -/
theorem c3_asset_isolation_witness :
    ∃ out, generateAssetsPhase mC3 true (fun _ => false) (fun _ => false) = .ok out ∧
      out.replacements =
        ("HERO_IMAGE", "./assets/hero.png") ::
          (List.range (numProjectsToGenerate (assetsProjects mC3) (assetsImgs mC3))).map
            (fun i => ("PROJECT_" ++ toString (i + 1) ++ "_IMG",
                       "./assets/project_" ++ toString (i + 1) ++ ".png")) ∧
      out.written.map Prod.fst =
        "assets/hero.png" ::
          (List.range (numProjectsToGenerate (assetsProjects mC3) (assetsImgs mC3))).map
            (fun i => "assets/project_" ++ toString (i + 1) ++ ".png") :=
  c3_asset_isolation mC3 [] rfl true (fun _ => false) (fun _ => false)

/-! ## Claim C4 — empty-payload handling across the two rotation levels -/

/-- C4 counterexample: with two credentials configured and the first one
yielding responses with no usable payload on both provider interfaces, the
text rotation does **not** proceed to the second credential: the resulting
`"Empty response from Gemini"` error is classified non-retryable and aborts
the rotation with only `"key1"` attempted. -/
theorem c4_counterexample :
    generateText (fun _ => generateTextWithKey (.ok {}) (.ok {})) ["key1", "key2"] =
      (.error "Text generation failed: Empty response from Gemini", ["key1"]) := by decide

/-- C4 (amended): an attempt whose provider responses carry no usable
payload fails that (credential, model) pair, but the resulting failure is
fatal at the credential-rotation level, not retryable there: the text
rotation aborts at that credential without attempting the rest.  Only the
model-candidate loop inside one credential treats a payload-less response as
retryable: image synthesis tries every remaining model of the same
credential, and once all return no data the rotation aborts as well. -/
theorem c4_amended (attempt : String → Except JsError String)
    (attemptNew attemptLegacy : String → Except JsError ImgResp)
    (k : String) (rest : List String) (rn : GenAiResponse) (rl : LegacyResponse)
    (hn : truthyOpt rn.text = none) (hna : altTruthy rn.parts = none)
    (hlt : rl.text = .undef) (hla : altTruthy rl.parts = none)
    (hatt : attempt k = generateTextWithKey (.ok rn) (.ok rl))
    (himgN : ∀ mdl, attemptNew mdl = .ok { inline := none })
    (himgL : ∀ mdl, attemptLegacy mdl = .ok { inline := none }) :
    generateText attempt (k :: rest) =
      (.error "Text generation failed: Empty response from Gemini", [k]) ∧
    (generateImageWithKey attemptNew attemptLegacy "assets/hero.png").2 =
      IMAGE_MODEL_CANDIDATES ++ legacyImageModels ∧
    (generateImageWithKey attemptNew attemptLegacy "assets/hero.png").1 =
      .error { message := "No image data returned from Gemini" } ∧
    generateImageToFile
        (fun _ => (generateImageWithKey attemptNew attemptLegacy "assets/hero.png").1)
        (k :: rest) =
      (.error "Image generation failed: No image data returned from Gemini", [k]) := by
  have hkey : generateTextWithKey (.ok rn) (.ok rl) =
      .error { message := "Empty response from Gemini" } := by
    simp only [generateTextWithKey, hn, hna, hlt, hla]
  have hre : isRetryableError { message := "Empty response from Gemini" } = false := by decide
  have himg : generateImageWithKey attemptNew attemptLegacy "assets/hero.png" =
      (.error { message := "No image data returned from Gemini" },
        IMAGE_MODEL_CANDIDATES ++ legacyImageModels) := by
    simp [generateImageWithKey, imgModelLoop, IMAGE_MODEL_CANDIDATES, legacyImageModels,
      himgN, himgL, truthyOpt]
  have hre2 : isRetryableError { message := "No image data returned from Gemini" } = false := by
    decide
  refine ⟨?_, by rw [himg], by rw [himg], ?_⟩
  · simp [generateText, rotateKeys, hatt, hkey, hre, errMsgOf]
  · rw [himg]
    simp [generateImageToFile, rotateKeys, hre2, errMsgOf]

/-- C4 witness: the amended statement at concrete keys, empty responses on
both interfaces, and a two-credential list. -/
theorem c4_amended_witness :
    generateText (fun _ => generateTextWithKey (.ok {}) (.ok {})) ("keyA" :: ["keyB"]) =
      (.error "Text generation failed: Empty response from Gemini", ["keyA"]) ∧
    (generateImageWithKey (fun _ => .ok { inline := none }) (fun _ => .ok { inline := none })
        "assets/hero.png").2 =
      IMAGE_MODEL_CANDIDATES ++ legacyImageModels ∧
    (generateImageWithKey (fun _ => .ok { inline := none }) (fun _ => .ok { inline := none })
        "assets/hero.png").1 =
      .error { message := "No image data returned from Gemini" } ∧
    generateImageToFile
        (fun _ => (generateImageWithKey (fun _ => .ok { inline := none })
          (fun _ => .ok { inline := none }) "assets/hero.png").1)
        ("keyA" :: ["keyB"]) =
      (.error "Image generation failed: No image data returned from Gemini", ["keyA"]) :=
  c4_amended (fun _ => generateTextWithKey (.ok {}) (.ok {}))
    (fun _ => .ok { inline := none }) (fun _ => .ok { inline := none })
    "keyA" ["keyB"] {} {} rfl rfl rfl rfl rfl (fun _ => rfl) (fun _ => rfl)

/-! ## Claim C9 — fatal errors abort the rotation -/

theorem rotateKeys_fatal {α : Type} (attempt : String → Except JsError α) (wrap : String) :
    ∀ (pre : List String) (k : String) (post : List String) (e : JsError),
      (∀ k' ∈ pre, ∃ e', attempt k' = .error e' ∧ isRetryableError e' = true) →
      attempt k = .error e → isRetryableError e = false →
      rotateKeys attempt wrap (pre ++ k :: post) = (.error (wrap ++ errMsgOf e), pre ++ [k])
  | [], k, post, e, _, hk, he => by
    simp [rotateKeys, hk, he]
  | k' :: pre', k, post, e, hpre, hk, he => by
    obtain ⟨e', he', hr⟩ := hpre k' (List.mem_cons_self _ _)
    have ih := rotateKeys_fatal attempt wrap pre' k post e
      (fun x hx => hpre x (List.mem_cons_of_mem _ hx)) hk he
    simp [rotateKeys, he', hr, ih]

/-- C9: when the candidates before `k` all fail retryably and `k` fails with
a fatal error — status not 429/503 and no quota/overloaded/rate-limit text —
both rotation loops (text and image generation) abort at `k`: the attempted
candidates are exactly `pre ++ [k]` and the keys in `post` are never
tried. -/
theorem c9_fatal_aborts (attempt : String → Except JsError String) (pre : List String)
    (k : String) (post : List String) (e : JsError)
    (hpre : ∀ k' ∈ pre, ∃ e', attempt k' = .error e' ∧ isRetryableError e' = true)
    (hk : attempt k = .error e) (he : isRetryableError e = false) :
    generateText attempt (pre ++ k :: post) =
      (.error ("Text generation failed: " ++ errMsgOf e), pre ++ [k]) ∧
    generateImageToFile attempt (pre ++ k :: post) =
      (.error ("Image generation failed: " ++ errMsgOf e), pre ++ [k]) :=
  ⟨rotateKeys_fatal attempt _ pre k post e hpre hk he,
   rotateKeys_fatal attempt _ pre k post e hpre hk he⟩

/-- C9 witness: with a rate-limited first key and a 500-failing second key,
the third key is never attempted. -/
theorem c9_fatal_aborts_witness :
    generateText
        (fun key => if key = "k1" then .error { status := some 429 }
          else .error { status := some 500, message := "Internal error" })
        (["k1"] ++ "k2" :: ["k3"]) =
      (.error ("Text generation failed: " ++
        errMsgOf { status := some 500, message := "Internal error" }), ["k1"] ++ ["k2"]) ∧
    generateImageToFile
        (fun key => if key = "k1" then .error { status := some 429 }
          else .error { status := some 500, message := "Internal error" })
        (["k1"] ++ "k2" :: ["k3"]) =
      (.error ("Image generation failed: " ++
        errMsgOf { status := some 500, message := "Internal error" }), ["k1"] ++ ["k2"]) :=
  c9_fatal_aborts _ ["k1"] "k2" ["k3"] { status := some 500, message := "Internal error" }
    (by intro k' hk'; refine ⟨{ status := some 429 }, ?_, by decide⟩
        simp at hk'; subst hk'; rfl)
    (by decide) (by decide)

/-! ## Claim C10 — token substitution is a frame over `content` -/

/-- C10: `replaceInFiles` preserves length and order, never touches `path`
or any other field, and returns an entry entirely unchanged when its path is
falsy or its content is not a string. -/
theorem c10_frame (files : List FileEntry) (reps : List (String × String)) :
    (replaceInFiles files reps).length = files.length ∧
    (∀ i, ((replaceInFiles files reps).get? i).map FileEntry.path =
      (files.get? i).map FileEntry.path) ∧
    (∀ i, ((replaceInFiles files reps).get? i).map FileEntry.extra =
      (files.get? i).map FileEntry.extra) ∧
    (∀ i f, files.get? i = some f → (truthyOpt f.path = none ∨ f.content = none) →
      (replaceInFiles files reps).get? i = some f) := by
  refine ⟨by simp [replaceInFiles], ?_, ?_, ?_⟩
  · intro i
    simp only [replaceInFiles, List.get?_map]
    cases files.get? i with
    | none => rfl
    | some f =>
      cases hp : truthyOpt f.path <;> cases hcc : f.content <;> simp [hp, hcc]
  · intro i
    simp only [replaceInFiles, List.get?_map]
    cases files.get? i with
    | none => rfl
    | some f =>
      cases hp : truthyOpt f.path <;> cases hcc : f.content <;> simp [hp, hcc]
  · intro i f hi hguard
    simp only [replaceInFiles, List.get?_map, hi, Option.map_some]
    rcases hguard with hg | hg <;> simp [hg]

/-- C10 witness: a three-entry list with one substitutable entry, one
path-less entry and one non-string content. -/
theorem c10_frame_witness :
    ((replaceInFiles
        [{ path := some "index.html", content := some "a \x7b\x7bK\x7d\x7d b" },
         { path := none, content := some "keep" },
         { path := some "script.js", content := none, extra := [("kind", "js")] }]
        [("K", "v")]).get? 2).map FileEntry.extra =
      (([{ path := some "index.html", content := some "a \x7b\x7bK\x7d\x7d b" },
         { path := none, content := some "keep" },
         { path := some "script.js", content := none, extra := [("kind", "js")] }] :
        List FileEntry).get? 2).map FileEntry.extra :=
  (c10_frame _ [("K", "v")]).2.2.1 2

end Autofolio
